import Mathlib

/-!
# Exynos 7580 cluster hotplug policy engine

A shallow embedding of `drivers/cpufreq/dm_cluster_hotplug_7580.c`.

* The process-wide globals (`ctrl_hotplug`, `freq_history`, the set of online
  cores) become the fields of `World`; every C function becomes a Lean function
  that takes the world and returns the new one.
* Everything the driver reads from outside itself during one entry-point call
  (the suspend flag, the clock, the load sources, the core-power driver) is a
  field of `Env`.
* C integers are `Nat`/`Int`; conversions and wrap-around of the 32-bit and
  64-bit types are written out with `%` where the C code performs them.
* The work-queue calls (`queue_delayed_work_on`, `cancel_delayed_work_sync`) and
  the two locks do not touch the engine state and are left out.
-/

namespace DmClusterHotplug

/-! ## Data model -/

/-- Values of `enum hstate`. The enum is unsigned, so levels are naturals. -/
def H0 : Nat := 0
def H1 : Nat := 1
def H2 : Nat := 2
def H3 : Nat := 3
def H4 : Nat := 4
def H5 : Nat := 5
def H6 : Nat := 6
def H7 : Nat := 7
def MAX_HSTATE : Nat := 8

/-- The C `enum action`. -/
inductive action where
  | DOWN
  | UP
  | STAY
deriving DecidableEq, Repr

/-- Modelled from the spec: `NR_CPUS` is a kernel configuration constant that the
source file uses but does not define; the reference policy has eight cores
(level 0 is the full core count and each of the eight levels sheds one core). -/
def NR_CPUS : Nat := 8

def SUSPENDED_MIN_STATE : Nat := H6
def SCREEN_ON_MAX_STATE : Nat := H6
def WAKE_UP_STATE : Nat := H0
def AWAKE_SAMPLING_RATE : Nat := 100
def ASLEEP_SAMPLING_RATE : Nat := 1000
def CPU_DOWN_LOAD : Nat := 25
def CPU_UP_LOAD : Nat := 60
def GPU_UP_LOAD : Nat := 80
def INT_MAX : Int := 2147483647
def EINVAL : Int := 22

/-- The C `struct exynos_hotplug_ctrl`. `usage` holds the `time` member of each
`usage[MAX_HSTATE]` entry, in milliseconds; `last_time` is a `ktime_t` in nanoseconds. -/
structure exynos_hotplug_ctrl where
  last_time : Int
  last_check_time : Int
  sampling_rate : Nat
  up_threshold : Nat
  down_threshold : Nat
  up_tasks : Nat
  down_tasks : Nat
  gpu_load_threshold : Nat
  cpu_load_threshold : Nat
  max_lock : Int
  min_lock : Int
  force_hstate : Int
  cur_hstate : Int
  old_state : Nat
  usage : List Nat
deriving DecidableEq, Repr

/-- The C `struct hotplug_hstate`. -/
structure hotplug_hstate where
  name : String
  core_count : Nat
  state : Nat
deriving DecidableEq, Repr

/-- The level table. -/
def hstate_set : List hotplug_hstate :=
  [ { name := "H0", core_count := NR_CPUS, state := H0 },
    { name := "H1", core_count := 7, state := H1 },
    { name := "H2", core_count := 6, state := H2 },
    { name := "H3", core_count := 5, state := H3 },
    { name := "H4", core_count := 4, state := H4 },
    { name := "H5", core_count := 3, state := H5 },
    { name := "H6", core_count := 2, state := H6 },
    { name := "H7", core_count := 1, state := H7 } ]

/-- One call into the core-power driver. -/
inductive power_call where
  | cpu_up (cpu : Nat)
  | cpu_down (cpu : Nat)
deriving DecidableEq, Repr

/-- The mutable globals of the driver, the online-core mask of the core-power
driver, and the record of the core-power calls issued so far. -/
structure World where
  ctrl_hotplug : exynos_hotplug_ctrl
  freq_history_DOWN : Int
  freq_history_UP : Int
  cpu_online_mask : List Bool
  power_calls : List power_call
deriving DecidableEq, Repr

/-- What one entry-point call observes from its collaborators: the suspend flag,
the (at most two) clock readings, the load sources, and the behaviour of the
core-power driver as functions on the online-core mask. -/
structure Env where
  power_suspend_active : Bool
  ktime_get_1 : Int
  ktime_get_2 : Int
  nr_running : Nat
  cpu_get_avg_load : Nat
  gpu_get_load : Nat
  cpu_up : List Bool → Nat → List Bool
  cpu_down : List Bool → Nat → List Bool
  get_least_busy_cpu : List Bool → Nat

/-- The static initialiser of `ctrl_hotplug`; members not named are zero. -/
def ctrl_hotplug_init : exynos_hotplug_ctrl :=
  { last_time := 0,
    last_check_time := 0,
    sampling_rate := AWAKE_SAMPLING_RATE,
    up_threshold := 3,
    down_threshold := 3,
    up_tasks := 2,
    down_tasks := 1,
    gpu_load_threshold := GPU_UP_LOAD,
    cpu_load_threshold := CPU_UP_LOAD,
    max_lock := -1,
    min_lock := -1,
    force_hstate := -1,
    cur_hstate := H0,
    old_state := H0,
    usage := List.replicate MAX_HSTATE 0 }

/-- The world at module load, with the given cores online. -/
def World_init (mask : List Bool) : World :=
  { ctrl_hotplug := ctrl_hotplug_init,
    freq_history_DOWN := 0,
    freq_history_UP := 0,
    cpu_online_mask := mask,
    power_calls := [] }

/-! ## Machine integers -/

/-- Conversion to `int`: wrap into the signed 32-bit range. -/
def to_int (x : Int) : Int := (x + 2147483648) % 4294967296 - 2147483648

/-- Conversion to `unsigned int`: reduce modulo 2^32. -/
def to_uint (x : Int) : Nat := (x % 4294967296).toNat

/-- Conversion to `unsigned long` (64 bits on this platform). -/
def to_ulong (x : Int) : Nat := (x % 18446744073709551616).toNat

/-- The kernel `atomic_inc` on an `atomic_t` (a wrapping `int`). -/
def atomic_inc (v : Int) : Int := to_int (v + 1)

/-! ## Core power -/

def num_online_cpus (w : World) : Nat := w.cpu_online_mask.count true

def cpu_online (w : World) (cpu : Nat) : Bool := w.cpu_online_mask.getD cpu false

/-- The core count of a table entry, `hstate_set[i].core_count`. -/
def hstate_core_count (i : Nat) : Nat :=
  match hstate_set.get? i with
  | some h => h.core_count
  | none => 0

def get_core_count (state : Nat) : Nat :=
  if state < MAX_HSTATE then hstate_core_count state else hstate_core_count H0

/-- Call `cpu_up(cpu)` of the core-power driver. -/
def do_cpu_up (e : Env) (cpu : Nat) (w : World) : World :=
  { w with cpu_online_mask := e.cpu_up w.cpu_online_mask cpu,
           power_calls := w.power_calls ++ [power_call.cpu_up cpu] }

/-- Call `cpu_down(cpu)` of the core-power driver. -/
def do_cpu_down (e : Env) (cpu : Nat) (w : World) : World :=
  { w with cpu_online_mask := e.cpu_down w.cpu_online_mask cpu,
           power_calls := w.power_calls ++ [power_call.cpu_down cpu] }

/-- The `for` loop of `hotplug_cpu`: `k` iterations are left and the loop
variable is `i` (so `i + k = NR_CPUS`). -/
def hotplug_cpu_loop (e : Env) (cnt_target : Nat) : Nat → Nat → World → World
  | 0, _, w => w
  | k + 1, i, w =>
    let num_online := num_online_cpus w
    if num_online = cnt_target then w
    else if cnt_target > num_online then
      if !cpu_online w i then hotplug_cpu_loop e cnt_target k (i + 1) (do_cpu_up e i w)
      else hotplug_cpu_loop e cnt_target k (i + 1) w
    else
      let least_busy_cpu := e.get_least_busy_cpu w.cpu_online_mask
      hotplug_cpu_loop e cnt_target k (i + 1) (do_cpu_down e least_busy_cpu w)

def hotplug_cpu (e : Env) (state : Nat) (w : World) : World :=
  hotplug_cpu_loop e (get_core_count state) NR_CPUS 0 w

/-! ## Usage ledger -/

/-- The kernel `ktime_to_ms`: nanoseconds to milliseconds, truncating. -/
def ktime_to_ms (kt : Int) : Int := Int.tdiv kt 1000000

/-- The statement `usage[i].time += diff` on `unsigned long` entries. -/
def usage_add (usage : List Nat) (i : Nat) (diff : Int) : List Nat :=
  usage.set i (to_ulong ((usage.getD i 0 : Nat) + diff))

/-- Flush the time since `last_time` into the entry of `old_state`; returns the
new control block and `diff`. -/
def hotplug_update_time_status (curr_time : Int) (c : exynos_hotplug_ctrl) :
    exynos_hotplug_ctrl × Int :=
  let last_time := c.last_time
  let diff := ktime_to_ms (curr_time - last_time)
  let diff := if diff > INT_MAX then INT_MAX else diff
  ({ c with usage := usage_add c.usage c.old_state diff, last_time := curr_time }, diff)

/-! ## Bounds clamp and transition -/

/-- The first part of `hotplug_enter_hstate`: the value of the local `state`
when the comparison with `old_state` is reached. -/
def enter_hstate_target (suspend : Bool) (force : Bool) (state : Nat)
    (c : exynos_hotplug_ctrl) : Nat :=
  let state :=
    if !force then
      let min_state := c.min_lock
      let max_state := c.max_lock
      let state := if min_state ≥ 0 ∧ (state : Int) > min_state then min_state.toNat else state
      let state := if max_state > 0 ∧ (state : Int) < max_state then max_state.toNat else state
      state
    else state
  if !suspend ∧ state > SCREEN_ON_MAX_STATE then SCREEN_ON_MAX_STATE
  else if suspend ∧ state < SUSPENDED_MIN_STATE then SUSPENDED_MIN_STATE
  else state

def hotplug_enter_hstate (e : Env) (force : Bool) (state : Nat) (w : World) : World :=
  let state := enter_hstate_target e.power_suspend_active force state w.ctrl_hotplug
  if w.ctrl_hotplug.old_state = state then w
  else
    let w := { w with ctrl_hotplug := (hotplug_update_time_status e.ktime_get_1 w.ctrl_hotplug).1 }
    let w := hotplug_cpu e state w
    let w := { w with freq_history_UP := 0, freq_history_DOWN := 0 }
    let w := { w with ctrl_hotplug := (hotplug_update_time_status e.ktime_get_2 w.ctrl_hotplug).1 }
    { w with ctrl_hotplug := { w.ctrl_hotplug with old_state := state, cur_hstate := state } }

/-! ## Decider and level selector -/

def select_up_down (e : Env) (w : World) : World × action :=
  let nr : Int := to_int e.nr_running
  let up_threshold : Int := to_int w.ctrl_hotplug.up_threshold
  let down_threshold : Int := to_int w.ctrl_hotplug.down_threshold
  let num_online : Int := num_online_cpus w
  let cpu_load : Nat := e.cpu_get_avg_load
  let boosted : Bool := decide (e.gpu_get_load ≥ w.ctrl_hotplug.gpu_load_threshold)
  let w :=
    if to_uint (num_online * w.ctrl_hotplug.down_tasks) ≥ to_uint nr ∧ !boosted then
      if cpu_load ≤ CPU_DOWN_LOAD then
        { w with freq_history_DOWN := atomic_inc w.freq_history_DOWN, freq_history_UP := 0 }
      else
        { w with freq_history_UP := 0, freq_history_DOWN := 0 }
    else if (cpu_load ≥ CPU_UP_LOAD ∧ to_uint (num_online * w.ctrl_hotplug.up_tasks) ≤ to_uint nr)
        ∨ boosted then
      { w with freq_history_UP := atomic_inc w.freq_history_UP, freq_history_DOWN := 0 }
    else w
  if w.freq_history_UP > up_threshold then (w, action.UP)
  else if w.freq_history_DOWN > down_threshold then (w, action.DOWN)
  else (w, action.STAY)

def hotplug_adjust_state (move : action) (c : exynos_hotplug_ctrl) : Nat :=
  let state : Int := c.old_state
  let state :=
    if move = action.DOWN then
      let state := state + 1
      if state ≥ MAX_HSTATE then (MAX_HSTATE : Int) - 1 else state
    else if move ≠ action.STAY then
      let state := state - 4
      if state < 0 then 0 else state
    else state
  state.toNat

/-! ## The periodic tick -/

def exynos_work (e : Env) (w : World) : World :=
  let r := select_up_down e w
  let w := r.1
  let move := r.2
  let target_state := hotplug_adjust_state move w.ctrl_hotplug
  if e.power_suspend_active ∧ w.ctrl_hotplug.sampling_rate = AWAKE_SAMPLING_RATE then
    let w := hotplug_enter_hstate e false SUSPENDED_MIN_STATE w
    { w with ctrl_hotplug := { w.ctrl_hotplug with sampling_rate := ASLEEP_SAMPLING_RATE } }
  else if !e.power_suspend_active ∧ w.ctrl_hotplug.sampling_rate = ASLEEP_SAMPLING_RATE then
    let w := hotplug_enter_hstate e true WAKE_UP_STATE w
    { w with ctrl_hotplug := { w.ctrl_hotplug with sampling_rate := AWAKE_SAMPLING_RATE } }
  else if get_core_count w.ctrl_hotplug.old_state ≠ num_online_cpus w ∨ move ≠ action.STAY then
    hotplug_enter_hstate e false target_state w
  else w

/-! ## Control surface -/

/-- Which lock the pointer argument `value` of `__force_hstate` refers to. -/
inductive lock_field where
  | max_lock
  | min_lock
deriving DecidableEq, Repr

/-- The assignment `*value = v` of `__force_hstate`. -/
def lock_field.assign (f : lock_field) (v : Int) (c : exynos_hotplug_ctrl) :
    exynos_hotplug_ctrl :=
  match f with
  | lock_field.max_lock => { c with max_lock := v }
  | lock_field.min_lock => { c with min_lock := v }

def show_min_lock (w : World) : Int := w.ctrl_hotplug.min_lock

def show_max_lock (w : World) : Int := w.ctrl_hotplug.max_lock

def show_cur_hstate (w : World) : Int := w.ctrl_hotplug.cur_hstate

def show_force_hstate (w : World) : Int := w.ctrl_hotplug.force_hstate

def __set_force_hstate (e : Env) (target_state : Int) (w : World) : World :=
  if target_state < 0 then
    { w with ctrl_hotplug := { w.ctrl_hotplug with force_hstate := -1 } }
  else
    let w := hotplug_enter_hstate e true target_state.toNat w
    { w with ctrl_hotplug := { w.ctrl_hotplug with force_hstate := target_state } }

/-- The argument `buf` is the outcome of `sscanf(buf, "%d", &target_state)`:
`none` when no integer was converted. The result is the new world and the
returned `ssize_t`. -/
def store_force_hstate (e : Env) (buf : Option Int) (count : Nat) (w : World) : World × Int :=
  match buf with
  | none => (w, -EINVAL)
  | some target_state =>
    if target_state ≥ MAX_HSTATE then (w, -EINVAL)
    else (__set_force_hstate e target_state w, count)

def __force_hstate (e : Env) (target_state : Int) (value : lock_field) (w : World) : World :=
  if target_state < 0 then
    { w with ctrl_hotplug := value.assign (-1) w.ctrl_hotplug }
  else
    let w := hotplug_enter_hstate e true target_state.toNat w
    { w with ctrl_hotplug := value.assign target_state w.ctrl_hotplug }

/-- The value of the local `state` of `store_max_lock` when it is compared with
`old_state` (the two `if`s after the `state < 0` test). -/
def max_lock_bound (c : exynos_hotplug_ctrl) (target_state : Int) : Int :=
  let max_state := target_state
  let state := target_state
  let state := if c.min_lock ≥ 0 then c.min_lock else state
  let state := if max_state ≥ 0 ∧ state ≤ max_state then max_state else state
  state

def store_max_lock (e : Env) (buf : Option Int) (count : Nat) (w : World) : World × Int :=
  match buf with
  | none => (w, -EINVAL)
  | some target_state =>
    if target_state ≥ MAX_HSTATE then (w, -EINVAL)
    else
      let state := target_state
      if w.ctrl_hotplug.force_hstate ≠ -1 then (w, count)
      else if state < 0 then (__force_hstate e state lock_field.max_lock w, count)
      else
        let state := max_lock_bound w.ctrl_hotplug target_state
        if to_int w.ctrl_hotplug.old_state > state then
          ({ w with ctrl_hotplug := { w.ctrl_hotplug with max_lock := state } }, count)
        else (__force_hstate e state lock_field.max_lock w, count)

/-- The value of the local `state` of `store_min_lock` when it is compared with
`old_state`. -/
def min_lock_bound (c : exynos_hotplug_ctrl) (target_state : Int) : Int :=
  let max_state : Int := -1
  let state := target_state
  let max_state := if c.max_lock ≥ 0 then c.max_lock else max_state
  let state := if max_state ≥ 0 ∧ state ≤ max_state then max_state else state
  state

def store_min_lock (e : Env) (buf : Option Int) (count : Nat) (w : World) : World × Int :=
  match buf with
  | none => (w, -EINVAL)
  | some target_state =>
    if target_state ≥ MAX_HSTATE then (w, -EINVAL)
    else
      let state := target_state
      if w.ctrl_hotplug.force_hstate ≠ -1 then (w, count)
      else if state < 0 then (__force_hstate e state lock_field.min_lock w, count)
      else
        let state := min_lock_bound w.ctrl_hotplug target_state
        if to_int w.ctrl_hotplug.old_state < state then
          ({ w with ctrl_hotplug := { w.ctrl_hotplug with min_lock := state } }, count)
        else (__force_hstate e state lock_field.min_lock w, count)

def show_time_in_state (e : Env) (w : World) : World × List (String × Nat) :=
  let w := { w with ctrl_hotplug := (hotplug_update_time_status e.ktime_get_1 w.ctrl_hotplug).1 }
  (w, (List.range MAX_HSTATE).map fun i =>
    (match hstate_set.get? i with
      | some h => h.name
      | none => "", w.ctrl_hotplug.usage.getD i 0))

/-! ## The specification's words

Definitions that follow the wording of the specification rather than the source;
the theorems below compare them with the embedding. -/

/-- A lock as the specification sees it: absent (any negative value in the
driver), or a level index. -/
def lock_value (x : Int) : Option Nat := if x ≥ 0 then some x.toNat else none

/-- BoundsClamp, steps 3 and 4 of the specification: the screen-on ceiling when
suspend is not active, else the suspended floor, both at index 6. -/
def spec_suspend_clamp (suspend_active : Bool) (candidate : Nat) : Nat :=
  if !suspend_active ∧ candidate > 6 then 6
  else if suspend_active ∧ candidate < 6 then 6
  else candidate

/-- BoundsClamp for `force = false` in the order the specification gives:
`min_lock`, then `max_lock`, then the suspend-dependent ceiling or floor. -/
def spec_bounds_clamp (min_lock max_lock : Option Nat) (suspend_active : Bool)
    (candidate : Nat) : Nat :=
  let candidate :=
    match min_lock with
    | some m => if candidate > m then m else candidate
    | none => candidate
  let candidate :=
    match max_lock with
    | some m => if candidate < m then m else candidate
    | none => candidate
  spec_suspend_clamp suspend_active candidate

/-- The three decisions of the specification's HysteresisDecider. -/
inductive spec_decision where
  | Increase
  | Decrease
  | Hold
deriving DecidableEq, Repr

/-- The outcome of the specification's decider: the new streaks and the decision. -/
structure spec_decider_result where
  up_streak : Nat
  down_streak : Nat
  decision : spec_decision
deriving DecidableEq, Repr

/-- The HysteresisDecider of the specification over unbounded naturals: `n` online
cores, `r` runnable tasks, the boost flag, the prior streaks, the ratios, the
watermarks and the thresholds. -/
def spec_decider (n r cpu_load : Nat) (boost_active : Bool) (up_streak down_streak : Nat)
    (down_task_ratio up_task_ratio low_watermark high_watermark : Nat)
    (up_threshold down_threshold : Nat) : spec_decider_result :=
  let s : Nat × Nat :=
    if n * down_task_ratio ≥ r ∧ !boost_active then
      if cpu_load ≤ low_watermark then (0, down_streak + 1) else (0, 0)
    else if (cpu_load ≥ high_watermark ∧ n * up_task_ratio ≤ r) ∨ boost_active then
      (up_streak + 1, 0)
    else (up_streak, down_streak)
  { up_streak := s.1,
    down_streak := s.2,
    decision :=
      if s.1 > up_threshold then spec_decision.Increase
      else if s.2 > down_threshold then spec_decision.Decrease
      else spec_decision.Hold }

/-- The driver's name for each decision of the specification. -/
def spec_decision.to_action : spec_decision → action
  | spec_decision.Increase => action.UP
  | spec_decision.Decrease => action.DOWN
  | spec_decision.Hold => action.STAY

/-! ## Well-formed states and a well-behaved core-power driver -/

/-- The committed level is a table index and `cur_hstate` agrees with it. -/
def level_ok (w : World) : Prop :=
  w.ctrl_hotplug.old_state < MAX_HSTATE ∧ w.ctrl_hotplug.cur_hstate = w.ctrl_hotplug.old_state

instance (w : World) : Decidable (level_ok w) := by
  unfold level_ok
  infer_instance

/-- The level `l` is committed: both `old_state` and `cur_hstate` hold it. -/
def committed (w : World) (l : Nat) : Prop :=
  w.ctrl_hotplug.old_state = l ∧ w.ctrl_hotplug.cur_hstate = l

instance (w : World) (l : Nat) : Decidable (committed w l) := by
  unfold committed
  infer_instance

/-- The core-power driver never fails: `cpu_up` and `cpu_down` switch exactly the
named core, and the least busy core is an online one. -/
def core_power_ok (e : Env) : Prop :=
  (∀ (m : List Bool) (i : Nat), e.cpu_up m i = m.set i true) ∧
  (∀ (m : List Bool) (i : Nat), e.cpu_down m i = m.set i false) ∧
  (∀ m : List Bool, 0 < m.count true → m.getD (e.get_least_busy_cpu m) false = true)

/-! ## Sample inputs -/

/-- The first online core of a mask. -/
def first_online (m : List Bool) : Nat := m.indexOf true

/-- An environment whose core-power calls always succeed and whose least busy
core is the first online one. -/
def sample_env (suspend : Bool) (t1 t2 : Int) (nr cpu_load gpu_load : Nat) : Env :=
  { power_suspend_active := suspend,
    ktime_get_1 := t1,
    ktime_get_2 := t2,
    nr_running := nr,
    cpu_get_avg_load := cpu_load,
    gpu_get_load := gpu_load,
    cpu_up := fun m i => m.set i true,
    cpu_down := fun m i => m.set i false,
    get_least_busy_cpu := first_online }

/-- The initial world moved to level `l` with the matching number of cores online. -/
def world_at (l : Nat) : World :=
  { World_init (List.replicate (get_core_count l) true ++
      List.replicate (NR_CPUS - get_core_count l) false) with
    ctrl_hotplug := { ctrl_hotplug_init with old_state := l, cur_hstate := l } }

/-- The specification's decider on the inputs of one call of `select_up_down`:
the online count, the load sample of `e`, the streaks held in `freq_history`
and the tunables of `ctrl_hotplug`; the watermarks are the driver's constants. -/
def spec_decider_of (e : Env) (w : World) : spec_decider_result :=
  spec_decider (num_online_cpus w) e.nr_running e.cpu_get_avg_load
    (decide (e.gpu_get_load ≥ w.ctrl_hotplug.gpu_load_threshold))
    w.freq_history_UP.toNat w.freq_history_DOWN.toNat
    w.ctrl_hotplug.down_tasks w.ctrl_hotplug.up_tasks CPU_DOWN_LOAD CPU_UP_LOAD
    w.ctrl_hotplug.up_threshold w.ctrl_hotplug.down_threshold

/-- The world with the streaks replaced. -/
def with_streaks (w : World) (up_streak down_streak : Nat) : World :=
  { w with freq_history_UP := up_streak, freq_history_DOWN := down_streak }

/-- The initial world with all cores online after `down_tasks` was set to 2^29
through its attribute file. -/
def world_large_down_tasks : World :=
  { world_at 0 with
    ctrl_hotplug := { (world_at 0).ctrl_hotplug with down_tasks := 536870912 } }

/-- The world at level `l` with the given locks. -/
def world_locked (l : Nat) (min_lock max_lock : Int) : World :=
  { world_at l with
    ctrl_hotplug := { (world_at l).ctrl_hotplug with min_lock := min_lock, max_lock := max_lock } }

/-- The world at level `l`, sampling at the slow interval. -/
def world_asleep (l : Nat) : World :=
  { world_at l with
    ctrl_hotplug := { (world_at l).ctrl_hotplug with sampling_rate := ASLEEP_SAMPLING_RATE } }

/-! ## Plain tunables, operations and runs -/

/-- The five attributes whose store function is generated by
`define_store_state_function`. -/
inductive tunable where
  | up_threshold
  | down_threshold
  | sampling_rate
  | up_tasks
  | down_tasks
deriving DecidableEq, Repr

/-- The assignment `ctrl_hotplug._name = value`: an `unsigned long` stored in an
`unsigned int` member. -/
def tunable.assign (t : tunable) (value : Nat) (c : exynos_hotplug_ctrl) : exynos_hotplug_ctrl :=
  match t with
  | tunable.up_threshold => { c with up_threshold := to_uint value }
  | tunable.down_threshold => { c with down_threshold := to_uint value }
  | tunable.sampling_rate => { c with sampling_rate := to_uint value }
  | tunable.up_tasks => { c with up_tasks := to_uint value }
  | tunable.down_tasks => { c with down_tasks := to_uint value }

/-- The body of `define_store_state_function(_name)`. The argument `buf` is the
outcome of `kstrtoul(buf, 10, &value)`: its nonzero return code, or the value. -/
def define_store_state_function (t : tunable) (buf : Except Int Nat) (count : Nat)
    (w : World) : World × Int :=
  match buf with
  | Except.error ret => (w, ret)
  | Except.ok value => ({ w with ctrl_hotplug := t.assign value w.ctrl_hotplug }, count)

def store_up_threshold := define_store_state_function tunable.up_threshold

def store_down_threshold := define_store_state_function tunable.down_threshold

def store_sampling_rate := define_store_state_function tunable.sampling_rate

def store_up_tasks := define_store_state_function tunable.up_tasks

def store_down_tasks := define_store_state_function tunable.down_tasks

/-- One entry into the driver: the periodic tick, a write to one of the
attribute files, or a read of `time_in_state`. -/
inductive op where
  | tick
  | write_force_hstate (buf : Option Int) (count : Nat)
  | write_min_lock (buf : Option Int) (count : Nat)
  | write_max_lock (buf : Option Int) (count : Nat)
  | write_tunable (t : tunable) (buf : Except Int Nat) (count : Nat)
  | read_time_in_state

/-- The world after one entry into the driver. -/
def step (e : Env) (o : op) (w : World) : World :=
  match o with
  | op.tick => exynos_work e w
  | op.write_force_hstate buf count => (store_force_hstate e buf count w).1
  | op.write_min_lock buf count => (store_min_lock e buf count w).1
  | op.write_max_lock buf count => (store_max_lock e buf count w).1
  | op.write_tunable t buf count => (define_store_state_function t buf count w).1
  | op.read_time_in_state => (show_time_in_state e w).1

/-- The world after a sequence of entries, each with what it observes. -/
def run : List (Env × op) → World → World
  | [], w => w
  | (e, o) :: rest, w => run rest (step e o w)

/-- The world after a sequence of ticks. -/
def run_ticks : List Env → World → World
  | [], w => w
  | e :: rest, w => run_ticks rest (exynos_work e w)

/-- The world at level `l` with `force_hstate` holding `l`. -/
def world_forced (l : Nat) : World :=
  { world_at l with ctrl_hotplug := { (world_at l).ctrl_hotplug with force_hstate := l } }

/-- Whether a core-power call brings a core online. -/
def power_call.is_up : power_call → Bool
  | power_call.cpu_up _ => true
  | power_call.cpu_down _ => false

/-- The value of `diff` that `hotplug_update_time_status` adds and returns: the
whole milliseconds between `last_time` and `curr_time`, capped at `INT_MAX`. -/
def time_status_diff (curr_time last_time : Int) : Int :=
  if ktime_to_ms (curr_time - last_time) > INT_MAX then INT_MAX
  else ktime_to_ms (curr_time - last_time)

/-- A lock or forced level is well formed: the "none" value -1 or a table index. -/
def lock_ok (x : Int) : Prop := x = -1 ∨ (0 ≤ x ∧ x < MAX_HSTATE)

instance (x : Int) : Decidable (lock_ok x) := by
  unfold lock_ok
  infer_instance

/-- The well-formedness of the engine state: `cur_hstate` equals `old_state`, that
level is a table index, and `force_hstate`, `min_lock` and `max_lock` are each -1
or a table index. -/
def state_ok (w : World) : Prop :=
  level_ok w ∧ lock_ok w.ctrl_hotplug.force_hstate ∧ lock_ok w.ctrl_hotplug.min_lock ∧
    lock_ok w.ctrl_hotplug.max_lock

instance (w : World) : Decidable (state_ok w) := by
  unfold state_ok
  infer_instance

/-- Two control blocks hold the same ledger: the same usage entries, the same
`last_time` and the same `old_state`. -/
def ledger_eq (c c2 : exynos_hotplug_ctrl) : Prop :=
  c2.usage = c.usage ∧ c2.last_time = c.last_time ∧ c2.old_state = c.old_state

/-- The load sample of Scenario A read at `t` milliseconds: awake, one runnable
task, CPU load 10, no GPU load. -/
def scenario_a_env (t : Nat) : Env := sample_env false (t * 1000000) (t * 1000000) 1 10 0

/-- The first `n` ticks of Scenario A, 100 ms apart. -/
def scenario_a_ticks (n : Nat) : List Env :=
  (List.range n).map fun i => scenario_a_env ((i + 1) * 100)

/-- The conditions of gradual shedding on one tick: suspend not active, CPU load
at or below the low watermark, no boost, and the down task-ratio condition
holding without 32-bit wrap-around. -/
def shedding_tick (e : Env) (w : World) : Prop :=
  e.power_suspend_active = false ∧
  e.cpu_get_avg_load ≤ CPU_DOWN_LOAD ∧
  e.gpu_get_load < w.ctrl_hotplug.gpu_load_threshold ∧
  num_online_cpus w * w.ctrl_hotplug.down_tasks < 4294967296 ∧
  e.nr_running < 4294967296 ∧
  e.nr_running ≤ num_online_cpus w * w.ctrl_hotplug.down_tasks

/-- Every tick of the sequence is a shedding tick in the state it meets. -/
def shedding : List Env → World → Prop
  | [], _ => True
  | e :: es, w => shedding_tick e w ∧ shedding es (exynos_work e w)

/-- An awake engine without locks: not sampling at the slow interval, `min_lock`
and `max_lock` absent, both thresholds below 2^31, the committed level at most the
screen-on ceiling, and `cur_hstate` equal to `old_state`. -/
def awake_unlocked (w : World) : Prop :=
  w.ctrl_hotplug.sampling_rate ≠ ASLEEP_SAMPLING_RATE ∧
  w.ctrl_hotplug.min_lock < 0 ∧
  w.ctrl_hotplug.max_lock < 0 ∧
  w.ctrl_hotplug.up_threshold < 2147483648 ∧
  w.ctrl_hotplug.down_threshold < 2147483648 ∧
  w.ctrl_hotplug.old_state ≤ 6 ∧
  w.ctrl_hotplug.cur_hstate = w.ctrl_hotplug.old_state

/-- The world after the first `n` ticks of a sequence. -/
def after_ticks (es : List Env) (w : World) (n : Nat) : World := run_ticks (es.take n) w

/-- The committed level after the first `n` ticks of a sequence. -/
def level_after (es : List Env) (w : World) (n : Nat) : Nat :=
  (after_ticks es w n).ctrl_hotplug.old_state

/-- The down streak after the first `n` ticks of a sequence. -/
def down_streak_after (es : List Env) (w : World) (n : Nat) : Int :=
  (after_ticks es w n).freq_history_DOWN

instance (e : Env) (w : World) : Decidable (shedding_tick e w) := by
  unfold shedding_tick
  infer_instance

instance (w : World) : Decidable (awake_unlocked w) := by
  unfold awake_unlocked
  infer_instance

/-- The predicate `shedding` is decidable, tick by tick. -/
def shedding_decidable : (es : List Env) → (w : World) → Decidable (shedding es w)
  | [], _ => isTrue trivial
  | e :: es, w =>
    match (inferInstance : Decidable (shedding_tick e w)),
        shedding_decidable es (exynos_work e w) with
    | isTrue h1, isTrue h2 => isTrue ⟨h1, h2⟩
    | isFalse h1, _ => isFalse (fun h => h1 h.1)
    | _, isFalse h2 => isFalse (fun h => h2 h.2)

instance (es : List Env) (w : World) : Decidable (shedding es w) := shedding_decidable es w

/-- Both streak counters are within the range of the 32-bit `atomic_t`. -/
def streak_ok (w : World) : Prop :=
  -2147483648 ≤ w.freq_history_UP ∧ w.freq_history_UP ≤ INT_MAX ∧
  -2147483648 ≤ w.freq_history_DOWN ∧ w.freq_history_DOWN ≤ INT_MAX

instance (w : World) : Decidable (streak_ok w) := by
  unfold streak_ok
  infer_instance

/-- The clock readings an entry point observes are ordered and fit a `ktime_t`:
the first is not before `last_time`, the second not before the first, and both
are below 2^63. -/
def clock_ok (e : Env) (w : World) : Prop :=
  w.ctrl_hotplug.last_time ≤ e.ktime_get_1 ∧ e.ktime_get_1 ≤ e.ktime_get_2 ∧
    e.ktime_get_2 < 9223372036854775808

instance (e : Env) (w : World) : Decidable (clock_ok e w) := by
  unfold clock_ok
  infer_instance

/-- Every entry of the trace observes ordered clock readings in the state it
meets. -/
def trace_clock_ok : List (Env × op) → World → Prop
  | [], _ => True
  | (e, o) :: rest, w => clock_ok e w ∧ trace_clock_ok rest (step e o w)

/-- The sum of the usage of all levels, in milliseconds. -/
def usage_total (w : World) : Nat := w.ctrl_hotplug.usage.sum

/-- The ledger never holds more than the elapsed time: the state is well formed,
`usage` has one entry per level, `last_time` is a non-negative `ktime_t`, and the
total usage in nanoseconds is at most `last_time` (the initial `last_time` is 0). -/
def ledger_ok (w : World) : Prop :=
  state_ok w ∧ w.ctrl_hotplug.usage.length = MAX_HSTATE ∧
    0 ≤ w.ctrl_hotplug.last_time ∧ w.ctrl_hotplug.last_time < 9223372036854775808 ∧
    (usage_total w : Int) * 1000000 ≤ w.ctrl_hotplug.last_time

/-- The value that `sscanf(buf, "%d", &target_state)` leaves in the 32-bit
`int target_state` of the three store functions when the text holds the integer
`n`: the kernel parses the digits into a `long` and stores it into the `int`, so
the stored value is `n` wrapped into the signed 32-bit range. It is `none` when
the text holds no integer (`ret != 1`). -/
def sscanf_d (text : Option Int) : Option Int :=
  match text with
  | none => none
  | some n => some (to_int n)

/-! # Theorems -/

/-! ## Helper lemmas: lists of online flags -/

theorem count_set_true (l : List Bool) (i : Nat) (h : l.getD i false = false) (hi : i < l.length) :
    (l.set i true).count true = l.count true + 1 := by
  induction l generalizing i with
  | nil => simp at hi
  | cons a l ih =>
    cases i with
    | zero =>
      simp at h
      subst h
      simp
    | succ i =>
      simp at h hi
      have := ih i (by simpa using h) hi
      simp [List.count_cons, this]
      omega

theorem count_set_false (l : List Bool) (i : Nat) (h : l.getD i false = true) :
    (l.set i false).count true + 1 = l.count true := by
  induction l generalizing i with
  | nil => simp at h
  | cons a l ih =>
    cases i with
    | zero =>
      simp at h
      subst h
      simp
    | succ i =>
      simp at h
      have := ih i (by simpa using h)
      simp [List.count_cons]
      omega

theorem getD_set_true (l : List Bool) (i j : Nat) (h : l.getD j false = true) :
    (l.set i true).getD j false = true := by
  induction l generalizing i j with
  | nil => simp at h
  | cons a l ih =>
    cases i with
    | zero =>
      cases j with
      | zero => simp
      | succ j => simpa using h
    | succ i =>
      cases j with
      | zero => simpa using h
      | succ j =>
        simp at h
        simpa using ih i j (by simpa using h)

theorem getD_set_self (l : List Bool) (i : Nat) (hi : i < l.length) :
    (l.set i true).getD i false = true := by
  induction l generalizing i with
  | nil => simp at hi
  | cons a l ih =>
    cases i with
    | zero => simp
    | succ i =>
      simp at hi
      simpa using ih i hi

theorem count_all_online (l : List Bool) (h : ∀ j, j < l.length → l.getD j false = true) :
    l.count true = l.length := by
  induction l with
  | nil => simp
  | cons a l ih =>
    have h0 := h 0 (by simp)
    simp at h0
    subst h0
    have := ih (fun j hj => by simpa using h (j + 1) (by simpa using hj))
    simp [this]

/-! ## Helper lemmas: the core-power loop -/

theorem hotplug_cpu_loop_frame (e : Env) (t : Nat) (k i : Nat) (w : World) :
    (hotplug_cpu_loop e t k i w).ctrl_hotplug = w.ctrl_hotplug ∧
    (hotplug_cpu_loop e t k i w).freq_history_UP = w.freq_history_UP ∧
    (hotplug_cpu_loop e t k i w).freq_history_DOWN = w.freq_history_DOWN := by
  induction k generalizing i w with
  | zero => simp [hotplug_cpu_loop]
  | succ k ih =>
    simp only [hotplug_cpu_loop]
    split
    · simp
    · split
      · split
        · simpa [do_cpu_up] using ih (i + 1) (do_cpu_up e i w)
        · exact ih (i + 1) w
      · simpa [do_cpu_down] using
          ih (i + 1) (do_cpu_down e (e.get_least_busy_cpu w.cpu_online_mask) w)

theorem hotplug_cpu_loop_up (e : Env) (he : core_power_ok e) (t : Nat) (k i : Nat) (w : World)
    (hlen : w.cpu_online_mask.length = i + k)
    (hall : ∀ j, j < i → w.cpu_online_mask.getD j false = true)
    (hle : num_online_cpus w ≤ t) (ht : t ≤ i + k) :
    num_online_cpus (hotplug_cpu_loop e t k i w) = t := by
  induction k generalizing i w with
  | zero =>
    simp only [hotplug_cpu_loop]
    have hc : w.cpu_online_mask.count true = w.cpu_online_mask.length :=
      count_all_online _ (fun j hj => hall j (by omega))
    unfold num_online_cpus at hle ⊢
    omega
  | succ k ih =>
    simp only [hotplug_cpu_loop]
    split
    · assumption
    · rename_i hne
      split
      · split
        · rename_i hoff
          have hoff2 : w.cpu_online_mask.getD i false = false := by
            simpa [cpu_online] using hoff
          have hset : (do_cpu_up e i w).cpu_online_mask = w.cpu_online_mask.set i true := by
            simp [do_cpu_up, he.1]
          apply ih (i + 1) (do_cpu_up e i w)
          · rw [hset]; simp; omega
          · intro j hj
            rw [hset]
            by_cases hji : j = i
            · subst hji; exact getD_set_self _ _ (by omega)
            · exact getD_set_true _ _ _ (hall j (by omega))
          · unfold num_online_cpus at *
            rw [hset, count_set_true _ _ hoff2 (by omega)]
            omega
          · omega
        · rename_i hon
          have hon2 : w.cpu_online_mask.getD i false = true := by
            simpa [cpu_online] using hon
          apply ih (i + 1) w
          · omega
          · intro j hj
            by_cases hji : j = i
            · subst hji; exact hon2
            · exact hall j (by omega)
          · exact hle
          · omega
      · omega

theorem hotplug_cpu_loop_down (e : Env) (he : core_power_ok e) (t : Nat) (k i : Nat) (w : World)
    (hge : t ≤ num_online_cpus w) (hk : num_online_cpus w - t ≤ k) :
    num_online_cpus (hotplug_cpu_loop e t k i w) = t := by
  induction k generalizing i w with
  | zero =>
    simp only [hotplug_cpu_loop]
    omega
  | succ k ih =>
    simp only [hotplug_cpu_loop]
    split
    · assumption
    · rename_i hne
      split
      · omega
      · have hpos : 0 < w.cpu_online_mask.count true := by
          unfold num_online_cpus at *
          omega
        have hlb := he.2.2 w.cpu_online_mask hpos
        have hset : (do_cpu_down e (e.get_least_busy_cpu w.cpu_online_mask) w).cpu_online_mask
            = w.cpu_online_mask.set (e.get_least_busy_cpu w.cpu_online_mask) false := by
          simp [do_cpu_down, he.2.1]
        have hc := count_set_false _ _ hlb
        apply ih
        · unfold num_online_cpus at *
          rw [hset]; omega
        · unfold num_online_cpus at *
          rw [hset]; omega

theorem get_core_count_le (state : Nat) : get_core_count state ≤ NR_CPUS := by
  unfold get_core_count
  split
  · rename_i h
    have : state < 8 := h
    interval_cases state <;> decide
  · decide

theorem hotplug_cpu_converges (e : Env) (he : core_power_ok e) (state : Nat) (w : World)
    (hlen : w.cpu_online_mask.length = NR_CPUS) :
    num_online_cpus (hotplug_cpu e state w) = get_core_count state := by
  unfold hotplug_cpu
  by_cases h : num_online_cpus w ≤ get_core_count state
  · exact hotplug_cpu_loop_up e he _ NR_CPUS 0 w (by simpa using hlen) (by simp) h
      (by simpa using get_core_count_le state)
  · have hc : num_online_cpus w ≤ NR_CPUS := by
      unfold num_online_cpus
      rw [← hlen]
      exact List.count_le_length _ _
    exact hotplug_cpu_loop_down e he _ NR_CPUS 0 w (by omega) (by omega)

/-! ## Helper lemmas: clamp and transition -/

theorem hotplug_cpu_frame (e : Env) (state : Nat) (w : World) :
    (hotplug_cpu e state w).ctrl_hotplug = w.ctrl_hotplug ∧
    (hotplug_cpu e state w).freq_history_UP = w.freq_history_UP ∧
    (hotplug_cpu e state w).freq_history_DOWN = w.freq_history_DOWN :=
  hotplug_cpu_loop_frame e _ _ _ w

theorem enter_hstate_target_force (suspend : Bool) (f : Nat) (c : exynos_hotplug_ctrl) :
    enter_hstate_target suspend true f c = spec_suspend_clamp suspend f := by
  simp [enter_hstate_target, spec_suspend_clamp, SCREEN_ON_MAX_STATE, SUSPENDED_MIN_STATE, H6]

theorem min_step_eq (a : Int) (s : Nat) :
    (if a ≥ 0 ∧ (s : Int) > a then a.toNat else s) =
      (match lock_value a with
       | some m => if s > m then m else s
       | none => s) := by
  unfold lock_value
  by_cases ha : 0 ≤ a
  · lift a to Nat using ha
    simp
  · have : ¬ (a ≥ 0) := ha
    simp [this]

theorem max_step_eq (b : Int) (s : Nat) :
    (if b > 0 ∧ (s : Int) < b then b.toNat else s) =
      (match lock_value b with
       | some m => if s < m then m else s
       | none => s) := by
  unfold lock_value
  by_cases hb : 0 ≤ b
  · lift b to Nat using hb
    simp
    split_ifs <;> omega
  · have h1 : ¬ (b ≥ 0) := hb
    have h2 : ¬ (b > 0) := by omega
    simp [h1, h2]

theorem enter_hstate_target_unforced (suspend : Bool) (s : Nat) (c : exynos_hotplug_ctrl) :
    enter_hstate_target suspend false s c =
      spec_bounds_clamp (lock_value c.min_lock) (lock_value c.max_lock) suspend s := by
  unfold enter_hstate_target spec_bounds_clamp
  simp only [Bool.not_false, if_true, min_step_eq, max_step_eq]
  rfl

theorem hotplug_enter_hstate_old_state (e : Env) (force : Bool) (state : Nat) (w : World) :
    (hotplug_enter_hstate e force state w).ctrl_hotplug.old_state =
      enter_hstate_target e.power_suspend_active force state w.ctrl_hotplug := by
  unfold hotplug_enter_hstate
  simp only
  split
  · assumption
  · rfl

theorem hotplug_enter_hstate_cur_hstate (e : Env) (force : Bool) (state : Nat) (w : World)
    (hcur : w.ctrl_hotplug.cur_hstate = w.ctrl_hotplug.old_state) :
    (hotplug_enter_hstate e force state w).ctrl_hotplug.cur_hstate =
      enter_hstate_target e.power_suspend_active force state w.ctrl_hotplug := by
  unfold hotplug_enter_hstate
  simp only
  split
  · rename_i h
    rw [hcur, h]
  · rfl

theorem hotplug_enter_hstate_committed (e : Env) (force : Bool) (state : Nat) (w : World)
    (hcur : w.ctrl_hotplug.cur_hstate = w.ctrl_hotplug.old_state) :
    committed (hotplug_enter_hstate e force state w)
      (enter_hstate_target e.power_suspend_active force state w.ctrl_hotplug) :=
  ⟨hotplug_enter_hstate_old_state e force state w,
   hotplug_enter_hstate_cur_hstate e force state w hcur⟩

/-! ## Helper lemmas: machine integers -/

theorem to_int_of_range (x : Int) (h0 : -2147483648 ≤ x) (h1 : x < 2147483648) : to_int x = x := by
  unfold to_int
  omega

theorem to_uint_of_nat (x : Nat) (h : x < 4294967296) : to_uint (x : Int) = x := by
  unfold to_uint
  omega

theorem to_uint_to_int (x : Nat) : to_uint (to_int (x : Int)) = x % 4294967296 := by
  unfold to_uint to_int
  omega

theorem atomic_inc_of_range (v : Nat) (h : (v : Int) < INT_MAX) :
    atomic_inc (v : Int) = ((v + 1 : Nat) : Int) := by
  unfold atomic_inc to_int
  unfold INT_MAX at h
  push_cast
  omega


/-! ## C1 -/

/-- C1, as stated, fails: forcing the last index 7 while suspend is not active
commits level 6 (two cores online), not level 7. -/
theorem forced_last_index_awake_commits_H6 :
    committed (hotplug_enter_hstate (sample_env false 5000000 6000000 1 10 0) true 7 (world_at 0)) 6 ∧
    ¬ committed (hotplug_enter_hstate (sample_env false 5000000 6000000 1 10 0) true 7 (world_at 0)) 7 ∧
    num_online_cpus
      (hotplug_enter_hstate (sample_env false 5000000 6000000 1 10 0) true 7 (world_at 0)) = 2 := by
  decide

/-- C1 (amended): with `force = true` the committed level is the target with only
the screen-on ceiling or suspended floor applied, whatever `min_lock` and
`max_lock` are, and a `force_hstate` write of a valid index commits the same
level; a forced index at most 6 while awake, or at least 6 while suspended, is
committed verbatim. -/
theorem forced_level_commits_suspend_clamp (e : Env) (w : World) (f count : Nat)
    (hcur : w.ctrl_hotplug.cur_hstate = w.ctrl_hotplug.old_state) :
    committed (hotplug_enter_hstate e true f w) (spec_suspend_clamp e.power_suspend_active f) ∧
    (f < MAX_HSTATE →
      committed (store_force_hstate e (some f) count w).1
        (spec_suspend_clamp e.power_suspend_active f)) ∧
    (e.power_suspend_active = false → f ≤ 6 → committed (hotplug_enter_hstate e true f w) f) ∧
    (e.power_suspend_active = true → 6 ≤ f → committed (hotplug_enter_hstate e true f w) f) := by
  have hmain := hotplug_enter_hstate_committed e true f w hcur
  rw [enter_hstate_target_force] at hmain
  refine ⟨hmain, ?_, ?_, ?_⟩
  · intro hf
    have hf2 : ¬ ((f : Int) ≥ (MAX_HSTATE : Nat)) := by
      have : (f : Int) < (MAX_HSTATE : Nat) := by exact_mod_cast hf
      omega
    have hf3 : ¬ ((f : Int) < 0) := by omega
    simp only [store_force_hstate, hf2, if_false, __set_force_hstate, hf3, Int.toNat_ofNat]
    exact hmain
  · intro hs hf
    have : spec_suspend_clamp e.power_suspend_active f = f := by
      simp [spec_suspend_clamp, hs]; omega
    rw [this] at hmain
    exact hmain
  · intro hs hf
    have : spec_suspend_clamp e.power_suspend_active f = f := by
      simp [spec_suspend_clamp, hs]; omega
    rw [this] at hmain
    exact hmain

/-- C1 instance: at level 3 with suspend active, forcing index 0 commits level 6. -/
theorem forced_level_commits_suspend_clamp_witness :
    committed (hotplug_enter_hstate (sample_env true 5000000 6000000 1 10 0) true 0 (world_at 3))
      (spec_suspend_clamp true 0) ∧ spec_suspend_clamp true 0 = 6 :=
  ⟨(forced_level_commits_suspend_clamp (sample_env true 5000000 6000000 1 10 0)
      (world_at 3) 0 1 (by decide)).1, by decide⟩

/-! ## C2 -/

/-- C2: with `force = false` the committed level is the candidate clamped by
`min_lock`, then `max_lock`, then the screen-on ceiling (suspend not active) or
the suspended floor (suspend active), for every candidate, lock values, suspend
flag and previous level. -/
theorem unforced_level_commits_spec_bounds_clamp (e : Env) (w : World) (c : Nat)
    (hcur : w.ctrl_hotplug.cur_hstate = w.ctrl_hotplug.old_state) :
    committed (hotplug_enter_hstate e false c w)
      (spec_bounds_clamp (lock_value w.ctrl_hotplug.min_lock) (lock_value w.ctrl_hotplug.max_lock)
        e.power_suspend_active c) := by
  have hmain := hotplug_enter_hstate_committed e false c w hcur
  rw [enter_hstate_target_unforced] at hmain
  exact hmain

/-- C2 instance: at level 1 with `min_lock = 3`, awake, the candidate 5 commits level 3. -/
theorem unforced_level_commits_spec_bounds_clamp_witness :
    committed
      (hotplug_enter_hstate (sample_env false 5000000 6000000 1 10 0) false 5
        { world_at 1 with ctrl_hotplug := { (world_at 1).ctrl_hotplug with min_lock := 3 } })
      (spec_bounds_clamp (some 3) none false 5) ∧
    spec_bounds_clamp (some 3) none false 5 = 3 :=
  ⟨unforced_level_commits_spec_bounds_clamp (sample_env false 5000000 6000000 1 10 0)
      { world_at 1 with ctrl_hotplug := { (world_at 1).ctrl_hotplug with min_lock := 3 } } 5
      (by decide), by decide⟩

/-! ## C3 -/

/-- C3, as stated, fails: with eight cores online and `down_tasks = 2^29` the
32-bit product `num_online * down_tasks` wraps to 0, so with one runnable task and
load 10 the driver coasts (down streak stays 0, result STAY from unchanged
streaks) where the specified decider counts a low-load tick (down streak 1). -/
theorem select_up_down_task_product_wraps :
    (select_up_down (sample_env false 0 0 1 10 0) world_large_down_tasks).1.freq_history_DOWN = 0 ∧
    (spec_decider_of (sample_env false 0 0 1 10 0) world_large_down_tasks).down_streak = 1 ∧
    select_up_down (sample_env false 0 0 1 10 0) world_large_down_tasks ≠
      (with_streaks world_large_down_tasks
        (spec_decider_of (sample_env false 0 0 1 10 0) world_large_down_tasks).up_streak
        (spec_decider_of (sample_env false 0 0 1 10 0) world_large_down_tasks).down_streak,
       (spec_decider_of (sample_env false 0 0 1 10 0) world_large_down_tasks).decision.to_action) := by
  decide

/-- C3 (amended): when nothing wraps (both 32-bit products and the task count
are below 2^32, both thresholds are below 2^31 and both streaks are in
`0 .. INT_MAX - 1`), `select_up_down` updates the streaks and returns the
decision exactly as the specified decider does. -/
theorem select_up_down_refines_spec_decider (e : Env) (w : World)
    (hu0 : 0 ≤ w.freq_history_UP) (hu1 : w.freq_history_UP < INT_MAX)
    (hd0 : 0 ≤ w.freq_history_DOWN) (hd1 : w.freq_history_DOWN < INT_MAX)
    (htu : w.ctrl_hotplug.up_threshold < 2147483648)
    (htd : w.ctrl_hotplug.down_threshold < 2147483648)
    (hpd : num_online_cpus w * w.ctrl_hotplug.down_tasks < 4294967296)
    (hpu : num_online_cpus w * w.ctrl_hotplug.up_tasks < 4294967296)
    (hnr : e.nr_running < 4294967296) :
    select_up_down e w =
      (with_streaks w (spec_decider_of e w).up_streak (spec_decider_of e w).down_streak,
       (spec_decider_of e w).decision.to_action) := by
  obtain ⟨c, fd, fu, mask, calls⟩ := w
  simp only [num_online_cpus] at hu0 hu1 hd0 hd1 htu htd hpd hpu
  lift fu to Nat using hu0
  lift fd to Nat using hd0
  generalize hn : mask.count true = n at hpd hpu
  have hA : to_uint ((n : Int) * (c.down_tasks : Int)) = n * c.down_tasks := by
    rw [← Nat.cast_mul]; exact to_uint_of_nat _ hpd
  have hB : to_uint ((n : Int) * (c.up_tasks : Int)) = n * c.up_tasks := by
    rw [← Nat.cast_mul]; exact to_uint_of_nat _ hpu
  have hC : to_uint (to_int (e.nr_running : Int)) = e.nr_running := by
    rw [to_uint_to_int]; omega
  have hD : to_int (c.up_threshold : Int) = c.up_threshold := to_int_of_range _ (by omega) (by omega)
  have hE : to_int (c.down_threshold : Int) = c.down_threshold :=
    to_int_of_range _ (by omega) (by omega)
  have hF := atomic_inc_of_range fu hu1
  have hG := atomic_inc_of_range fd hd1
  by_cases hb : e.gpu_get_load ≥ c.gpu_load_threshold
  · simp only [select_up_down, spec_decider_of, spec_decider, with_streaks, num_online_cpus, hn,
      hA, hB, hC, hD, hE, hF, hG, Int.toNat_ofNat, hb, decide_True, Bool.not_true, and_false,
      or_true, if_true, if_false, Bool.false_eq_true]
    clear hA hB hC hD hE hF hG hpd hpu hu1 hd1 htu htd hnr
    split_ifs <;> first | rfl | omega
  · by_cases h1 : n * c.down_tasks ≥ e.nr_running
    · by_cases h2 : e.cpu_get_avg_load ≤ CPU_DOWN_LOAD
      · simp only [select_up_down, spec_decider_of, spec_decider, with_streaks, num_online_cpus, hn,
          hA, hB, hC, hD, hE, hF, hG, Int.toNat_ofNat, hb, h1, h2, decide_False, Bool.not_false,
          and_true, if_true]
        clear hA hB hC hD hE hF hG hpd hpu hu1 hd1 htu htd hnr
        split_ifs <;> first | rfl | omega
      · simp only [select_up_down, spec_decider_of, spec_decider, with_streaks, num_online_cpus, hn,
          hA, hB, hC, hD, hE, hF, hG, Int.toNat_ofNat, hb, h1, h2, decide_False, Bool.not_false,
          and_true, if_true, if_false]
        clear hA hB hC hD hE hF hG hpd hpu hu1 hd1 htu htd hnr
        split_ifs <;> first | rfl | omega
    · by_cases h3 : e.cpu_get_avg_load ≥ CPU_UP_LOAD ∧ n * c.up_tasks ≤ e.nr_running
      · simp only [select_up_down, spec_decider_of, spec_decider, with_streaks, num_online_cpus, hn,
          hA, hB, hC, hD, hE, hF, hG, Int.toNat_ofNat, hb, h1, h3, decide_False, Bool.not_false,
          and_true, and_self, true_or, or_false, false_and, if_true, if_false]
        clear hA hB hC hD hE hF hG hpd hpu hu1 hd1 htu htd hnr
        split_ifs <;> first | rfl | omega
      · simp only [select_up_down, spec_decider_of, spec_decider, with_streaks, num_online_cpus, hn,
          hA, hB, hC, hD, hE, hF, hG, Int.toNat_ofNat, hb, h1, h3, decide_False, Bool.not_false,
          and_true, or_false, false_and, if_true, if_false, Bool.false_eq_true]
        clear hA hB hC hD hE hF hG hpd hpu hu1 hd1 htu htd hnr
        split_ifs <;> first | rfl | omega

/-- C3 instance: the initial world with one runnable task and load 10. -/
theorem select_up_down_refines_spec_decider_witness :
    select_up_down (sample_env false 0 0 1 10 0) (world_at 0) =
      (with_streaks (world_at 0)
        (spec_decider_of (sample_env false 0 0 1 10 0) (world_at 0)).up_streak
        (spec_decider_of (sample_env false 0 0 1 10 0) (world_at 0)).down_streak,
       (spec_decider_of (sample_env false 0 0 1 10 0) (world_at 0)).decision.to_action) :=
  select_up_down_refines_spec_decider (sample_env false 0 0 1 10 0) (world_at 0)
    (by decide) (by decide) (by decide) (by decide) (by decide) (by decide) (by decide)
    (by decide) (by decide)

/-! ## C4 -/

/-- C4: for a previous level `p` in `0..7`, `hotplug_adjust_state` returns
`min (p + 1) 7` for DOWN, `max (p - 4) 0` for UP and `p` for STAY, so the
candidate is always an index in `0..7`. -/
theorem hotplug_adjust_state_selector (c : exynos_hotplug_ctrl) (hp : c.old_state ≤ 7) :
    hotplug_adjust_state action.DOWN c = min (c.old_state + 1) 7 ∧
    (hotplug_adjust_state action.UP c : Int) = max ((c.old_state : Int) - 4) 0 ∧
    hotplug_adjust_state action.STAY c = c.old_state ∧
    ∀ move, hotplug_adjust_state move c < MAX_HSTATE := by
  refine ⟨?_, ?_, ?_, ?_⟩
  · simp only [hotplug_adjust_state, MAX_HSTATE]
    simp
    split_ifs <;> omega
  · simp only [hotplug_adjust_state, MAX_HSTATE]
    simp
    split_ifs <;> omega
  · simp [hotplug_adjust_state]
  · intro move
    cases move <;> simp only [hotplug_adjust_state, MAX_HSTATE] <;> simp <;>
      (try split_ifs) <;> omega

/-- C4 instance: DOWN at level 7 stays at the last index. -/
theorem hotplug_adjust_state_selector_witness :
    hotplug_adjust_state action.DOWN (world_at 7).ctrl_hotplug
      = min ((world_at 7).ctrl_hotplug.old_state + 1) 7 :=
  (hotplug_adjust_state_selector (world_at 7).ctrl_hotplug (by decide)).1

/-! ## C5 -/

/-- C5: when the clamped level equals `old_state`, `hotplug_enter_hstate` returns
the world unchanged: levels, streaks, every usage entry, `last_time`, the online
mask and the record of core-power calls are as before. -/
theorem hotplug_enter_hstate_same_level_noop (e : Env) (force : Bool) (state : Nat) (w : World)
    (h : enter_hstate_target e.power_suspend_active force state w.ctrl_hotplug =
      w.ctrl_hotplug.old_state) :
    hotplug_enter_hstate e force state w = w := by
  unfold hotplug_enter_hstate
  simp [h]

/-- C5 instance: at level 6 while awake, the candidate 7 clamps to 6 and the world is unchanged. -/
theorem hotplug_enter_hstate_same_level_noop_witness :
    hotplug_enter_hstate (sample_env false 5000000 6000000 1 10 0) false 7 (world_at 6)
      = world_at 6 :=
  hotplug_enter_hstate_same_level_noop (sample_env false 5000000 6000000 1 10 0) false 7
    (world_at 6) (by decide)

/-! ## Helper lemmas: frames of the transition and of the decider -/

theorem hotplug_enter_hstate_ctrl_frame (e : Env) (force : Bool) (state : Nat) (w : World) :
    (hotplug_enter_hstate e force state w).ctrl_hotplug.sampling_rate = w.ctrl_hotplug.sampling_rate ∧
    (hotplug_enter_hstate e force state w).ctrl_hotplug.max_lock = w.ctrl_hotplug.max_lock ∧
    (hotplug_enter_hstate e force state w).ctrl_hotplug.min_lock = w.ctrl_hotplug.min_lock ∧
    (hotplug_enter_hstate e force state w).ctrl_hotplug.force_hstate = w.ctrl_hotplug.force_hstate := by
  unfold hotplug_enter_hstate
  simp only
  split
  · simp
  · simp [hotplug_update_time_status, (hotplug_cpu_frame e _ _).1]
theorem hotplug_enter_hstate_num_online (e : Env) (he : core_power_ok e) (force : Bool)
    (state : Nat) (w : World) (hlen : w.cpu_online_mask.length = NR_CPUS)
    (hne : enter_hstate_target e.power_suspend_active force state w.ctrl_hotplug ≠
      w.ctrl_hotplug.old_state) :
    num_online_cpus (hotplug_enter_hstate e force state w) =
      get_core_count (enter_hstate_target e.power_suspend_active force state w.ctrl_hotplug) := by
  unfold hotplug_enter_hstate
  simp only
  split
  · rename_i h
    exact absurd h.symm hne
  · exact hotplug_cpu_converges e he _ _ hlen
theorem decision_fst (a : World) (c d : Prop) [Decidable c] [Decidable d] :
    (if c then (a, action.UP) else if d then (a, action.DOWN) else (a, action.STAY)).1 = a := by
  split_ifs <;> rfl

theorem select_up_down_frame (e : Env) (w : World) :
    (select_up_down e w).1.ctrl_hotplug = w.ctrl_hotplug ∧
    (select_up_down e w).1.cpu_online_mask = w.cpu_online_mask ∧
    (select_up_down e w).1.power_calls = w.power_calls := by
  rw [select_up_down, decision_fst]
  split_ifs <;> exact ⟨rfl, rfl, rfl⟩
theorem first_online_is_online (m : List Bool) (h : 0 < m.count true) :
    m.getD (first_online m) false = true := by
  unfold first_online
  induction m with
  | nil => simp at h
  | cons a m ih =>
    cases a with
    | true => simp [List.indexOf_cons]
    | false =>
      have h2 : 0 < m.count true := by simpa using h
      simpa [List.indexOf_cons] using ih h2
theorem sample_env_core_power_ok (suspend : Bool) (t1 t2 : Int) (nr cpu_load gpu_load : Nat) :
    core_power_ok (sample_env suspend t1 t2 nr cpu_load gpu_load) :=
  ⟨fun _ _ => rfl, fun _ _ => rfl, fun m h => first_online_is_online m h⟩

theorem hotplug_enter_hstate_same_level_frame (e : Env) (force : Bool) (state : Nat) (w : World)
    (h : enter_hstate_target e.power_suspend_active force state w.ctrl_hotplug =
      w.ctrl_hotplug.old_state) :
    hotplug_enter_hstate e force state w = w := by
  rw [hotplug_enter_hstate]
  simp [h]

/-! ## Helper lemmas: the suspend and wake edges of the tick -/

theorem exynos_work_suspend_edge (e : Env) (w : World)
    (hs : e.power_suspend_active = true)
    (hr : w.ctrl_hotplug.sampling_rate = AWAKE_SAMPLING_RATE) :
    exynos_work e w =
      { hotplug_enter_hstate e false SUSPENDED_MIN_STATE (select_up_down e w).1 with
        ctrl_hotplug :=
          { (hotplug_enter_hstate e false SUSPENDED_MIN_STATE (select_up_down e w).1).ctrl_hotplug with
            sampling_rate := ASLEEP_SAMPLING_RATE } } := by
  have hf := (select_up_down_frame e w).1
  unfold exynos_work
  simp only [hf, hs, hr, and_self, if_true]

theorem exynos_work_wake_edge (e : Env) (w : World)
    (hs : e.power_suspend_active = false)
    (hr : w.ctrl_hotplug.sampling_rate = ASLEEP_SAMPLING_RATE) :
    exynos_work e w =
      { hotplug_enter_hstate e true WAKE_UP_STATE (select_up_down e w).1 with
        ctrl_hotplug :=
          { (hotplug_enter_hstate e true WAKE_UP_STATE (select_up_down e w).1).ctrl_hotplug with
            sampling_rate := AWAKE_SAMPLING_RATE } } := by
  have hf := (select_up_down_frame e w).1
  unfold exynos_work
  simp only [hf, hs, hr, Bool.false_eq_true, false_and, if_false, Bool.not_false, and_self, if_true]

theorem committed_with_sampling_rate (w : World) (r l : Nat) (h : committed w l) :
    committed { w with ctrl_hotplug := { w.ctrl_hotplug with sampling_rate := r } } l := h

theorem num_online_with_sampling_rate (w : World) (r : Nat) :
    num_online_cpus { w with ctrl_hotplug := { w.ctrl_hotplug with sampling_rate := r } }
      = num_online_cpus w := rfl

theorem spec_bounds_clamp_suspended_floor (a b : Int) (hb : b ≤ 7) :
    spec_bounds_clamp (lock_value a) (lock_value b) true 6 = if b = 7 then 7 else 6 := by
  unfold spec_bounds_clamp spec_suspend_clamp lock_value
  by_cases ha : 0 ≤ a
  · lift a to Nat using ha
    by_cases hb0 : 0 ≤ b
    · lift b to Nat using hb0
      have hb7 : b ≤ 7 := by exact_mod_cast hb
      simp
      split_ifs <;> omega
    · have h1 : ¬ (b ≥ 0) := hb0
      have h2 : ¬ (b = 7) := by omega
      simp [h1, h2]
      split_ifs <;> omega
  · have h0 : ¬ (a ≥ 0) := ha
    by_cases hb0 : 0 ≤ b
    · lift b to Nat using hb0
      have hb7 : b ≤ 7 := by exact_mod_cast hb
      simp [h0]
      split_ifs <;> omega
    · have h1 : ¬ (b ≥ 0) := hb0
      have h2 : ¬ (b = 7) := by omega
      simp [h0, h1, h2]

/-! ## Helper lemmas: lock writes -/

theorem committed_with_lock_assign (w : World) (f : lock_field) (v : Int) (l : Nat)
    (h : committed w l) :
    committed { w with ctrl_hotplug := f.assign v w.ctrl_hotplug } l := by
  cases f <;> exact h

theorem num_online_with_ctrl (w : World) (c : exynos_hotplug_ctrl) :
    num_online_cpus { w with ctrl_hotplug := c } = num_online_cpus w := rfl

theorem force_hstate_of_nonneg (e : Env) (t : Int) (f : lock_field) (w : World) (ht : 0 ≤ t) :
    __force_hstate e t f w =
      { hotplug_enter_hstate e true t.toNat w with
        ctrl_hotplug := f.assign t (hotplug_enter_hstate e true t.toNat w).ctrl_hotplug } := by
  have h : ¬ t < 0 := by omega
  rw [__force_hstate]
  simp only [h, if_false]

theorem force_hstate_of_neg (e : Env) (t : Int) (f : lock_field) (w : World) (ht : t < 0) :
    __force_hstate e t f w = { w with ctrl_hotplug := f.assign (-1) w.ctrl_hotplug } := by
  rw [__force_hstate]
  simp only [ht, if_true]

theorem max_lock_bound_eq (c : exynos_hotplug_ctrl) (X : Int) (hX0 : 0 ≤ X) :
    max_lock_bound c X = if c.min_lock ≥ 0 ∧ X < c.min_lock then c.min_lock else X := by
  unfold max_lock_bound
  simp only [ge_iff_le, hX0, true_and]
  split_ifs <;> omega

theorem min_lock_bound_eq (c : exynos_hotplug_ctrl) (X : Int) :
    min_lock_bound c X = if c.max_lock ≥ 0 ∧ X ≤ c.max_lock then c.max_lock else X := by
  unfold min_lock_bound
  simp only [ge_iff_le]
  split_ifs <;> omega

theorem store_max_lock_accepted (e : Env) (X : Int) (count : Nat) (w : World)
    (hforce : w.ctrl_hotplug.force_hstate = -1) (hX0 : 0 ≤ X) (hX : X < MAX_HSTATE) :
    (store_max_lock e (some X) count w).1 =
      if to_int w.ctrl_hotplug.old_state > max_lock_bound w.ctrl_hotplug X then
        { w with ctrl_hotplug :=
            { w.ctrl_hotplug with max_lock := max_lock_bound w.ctrl_hotplug X } }
      else __force_hstate e (max_lock_bound w.ctrl_hotplug X) lock_field.max_lock w := by
  have h1 : ¬ X ≥ (MAX_HSTATE : Int) := by omega
  have h2 : ¬ X < 0 := by omega
  rw [store_max_lock]
  simp only [h1, h2, hforce, if_false, ne_eq, not_true_eq_false]
  split_ifs <;> rfl

theorem store_min_lock_accepted (e : Env) (X : Int) (count : Nat) (w : World)
    (hforce : w.ctrl_hotplug.force_hstate = -1) (hX0 : 0 ≤ X) (hX : X < MAX_HSTATE) :
    (store_min_lock e (some X) count w).1 =
      if to_int w.ctrl_hotplug.old_state < min_lock_bound w.ctrl_hotplug X then
        { w with ctrl_hotplug :=
            { w.ctrl_hotplug with min_lock := min_lock_bound w.ctrl_hotplug X } }
      else __force_hstate e (min_lock_bound w.ctrl_hotplug X) lock_field.min_lock w := by
  have h1 : ¬ X ≥ (MAX_HSTATE : Int) := by omega
  have h2 : ¬ X < 0 := by omega
  rw [store_min_lock]
  simp only [h1, h2, hforce, if_false, ne_eq, not_true_eq_false]
  split_ifs <;> rfl

theorem to_int_old_state (w : World) (hok : level_ok w) :
    to_int w.ctrl_hotplug.old_state = w.ctrl_hotplug.old_state := by
  have h : w.ctrl_hotplug.old_state < 8 := hok.1
  exact to_int_of_range _ (by omega) (by omega)

/-! ## C6 -/

/-- C6, as stated, fails: with `max_lock = 7` the suspend-edge tick commits
level 7, not the suspended floor 6. -/
theorem suspend_edge_with_max_lock_H7_commits_H7 :
    committed (exynos_work (sample_env true 5000000 6000000 1 10 0) (world_locked 3 (-1) 7)) 7 ∧
    ¬ committed (exynos_work (sample_env true 5000000 6000000 1 10 0) (world_locked 3 (-1) 7)) 6 := by
  decide

/-- C6 (amended): a tick observed with suspend active while `sampling_rate` is
the active value ends with `sampling_rate` at the slow value and with the
committed level 6, except that it is 7 when `max_lock = 7`; this holds for every
level, every `min_lock` and every `max_lock` up to 7. -/
theorem suspend_edge_tick (e : Env) (w : World)
    (hs : e.power_suspend_active = true)
    (hr : w.ctrl_hotplug.sampling_rate = AWAKE_SAMPLING_RATE)
    (hcur : w.ctrl_hotplug.cur_hstate = w.ctrl_hotplug.old_state)
    (hmax : w.ctrl_hotplug.max_lock ≤ 7) :
    committed (exynos_work e w) (if w.ctrl_hotplug.max_lock = 7 then H7 else H6) ∧
    (exynos_work e w).ctrl_hotplug.sampling_rate = ASLEEP_SAMPLING_RATE := by
  have hf := (select_up_down_frame e w).1
  have hcur2 : (select_up_down e w).1.ctrl_hotplug.cur_hstate =
      (select_up_down e w).1.ctrl_hotplug.old_state := by rw [hf]; exact hcur
  have hc := hotplug_enter_hstate_committed e false SUSPENDED_MIN_STATE (select_up_down e w).1 hcur2
  rw [enter_hstate_target_unforced, hf, hs] at hc
  have hfl := spec_bounds_clamp_suspended_floor w.ctrl_hotplug.min_lock w.ctrl_hotplug.max_lock hmax
  have h6 : SUSPENDED_MIN_STATE = 6 := rfl
  rw [h6, hfl] at hc
  rw [exynos_work_suspend_edge e w hs hr]
  exact ⟨committed_with_sampling_rate _ _ _ hc, rfl⟩

/-- C6 instance: at level 2 with `min_lock = 4` and no `max_lock`, the suspend edge commits level 6. -/
theorem suspend_edge_tick_witness :
    committed (exynos_work (sample_env true 5000000 6000000 1 10 0) (world_locked 2 4 (-1)))
      (if (world_locked 2 4 (-1)).ctrl_hotplug.max_lock = 7 then H7 else H6) ∧
    (exynos_work (sample_env true 5000000 6000000 1 10 0)
      (world_locked 2 4 (-1))).ctrl_hotplug.sampling_rate = ASLEEP_SAMPLING_RATE :=
  suspend_edge_tick (sample_env true 5000000 6000000 1 10 0) (world_locked 2 4 (-1))
    rfl (by decide) (by decide) (by decide)

/-! ## C7 -/

/-- C7: a tick observed with suspend not active while `sampling_rate` is the
slow value ends with level 0 committed, whatever the level, locks, streaks and
decider result were, and with `sampling_rate` at the active value; level 0 is
the full core count, which the online count reaches when the core-power driver
does not fail. -/
theorem wake_edge_tick (e : Env) (w : World)
    (hs : e.power_suspend_active = false)
    (hr : w.ctrl_hotplug.sampling_rate = ASLEEP_SAMPLING_RATE)
    (hcur : w.ctrl_hotplug.cur_hstate = w.ctrl_hotplug.old_state) :
    committed (exynos_work e w) 0 ∧
    (exynos_work e w).ctrl_hotplug.sampling_rate = AWAKE_SAMPLING_RATE ∧
    get_core_count 0 = NR_CPUS ∧
    (core_power_ok e → w.cpu_online_mask.length = NR_CPUS → w.ctrl_hotplug.old_state ≠ 0 →
      num_online_cpus (exynos_work e w) = NR_CPUS) := by
  have hf := select_up_down_frame e w
  have hcur2 : (select_up_down e w).1.ctrl_hotplug.cur_hstate =
      (select_up_down e w).1.ctrl_hotplug.old_state := by rw [hf.1]; exact hcur
  have hc := hotplug_enter_hstate_committed e true WAKE_UP_STATE (select_up_down e w).1 hcur2
  have ht : enter_hstate_target e.power_suspend_active true WAKE_UP_STATE
      (select_up_down e w).1.ctrl_hotplug = 0 := by
    rw [enter_hstate_target_force, hs]; decide
  rw [ht] at hc
  rw [exynos_work_wake_edge e w hs hr]
  refine ⟨committed_with_sampling_rate _ _ _ hc, rfl, by decide, ?_⟩
  intro he hlen hne
  have hn := hotplug_enter_hstate_num_online e he true WAKE_UP_STATE (select_up_down e w).1
    (by rw [hf.2.1]; exact hlen) (by rw [ht, hf.1]; exact fun h => hne h.symm)
  rw [ht] at hn
  rw [num_online_with_sampling_rate]
  exact hn

/-- C7 instance: asleep at level 6, the wake edge commits level 0 with all eight cores online. -/
theorem wake_edge_tick_witness :
    committed (exynos_work (sample_env false 5000000 6000000 1 10 0) (world_asleep 6)) 0 ∧
    num_online_cpus (exynos_work (sample_env false 5000000 6000000 1 10 0) (world_asleep 6))
      = NR_CPUS :=
  ⟨(wake_edge_tick (sample_env false 5000000 6000000 1 10 0) (world_asleep 6)
      rfl (by decide) (by decide)).1,
   (wake_edge_tick (sample_env false 5000000 6000000 1 10 0) (world_asleep 6)
      rfl (by decide) (by decide)).2.2.2 (sample_env_core_power_ok _ _ _ _ _ _)
      (by decide) (by decide)⟩

/-! ## C8 -/

/-- C8, as stated, fails: with `min_lock = 5` and no force active, writing 2 to
`max_lock` is accepted and reading `max_lock` back yields 5. -/
theorem max_lock_read_back_yields_min_lock :
    (world_locked 3 5 (-1)).ctrl_hotplug.force_hstate = -1 ∧
    (store_max_lock (sample_env false 5000000 6000000 1 10 0) (some 2) 2 (world_locked 3 5 (-1))).2
      = 2 ∧
    show_max_lock
      (store_max_lock (sample_env false 5000000 6000000 1 10 0) (some 2) 2 (world_locked 3 5 (-1))).1
      = 5 := by
  decide

/-- C8 (amended): with no force active, an accepted write of `X` to `max_lock`
followed by a read yields `X` when `X` is a level index and `min_lock` is absent
or at most `X`, yields `min_lock` when `min_lock` is present and above `X`, and
yields -1 when `X` is negative, whatever the current level is. -/
theorem max_lock_write_read_back (e : Env) (w : World) (X : Int) (count : Nat)
    (hforce : w.ctrl_hotplug.force_hstate = -1) (hX : X < MAX_HSTATE) :
    show_max_lock (store_max_lock e (some X) count w).1 =
      (if X < 0 then -1
       else if w.ctrl_hotplug.min_lock ≥ 0 ∧ X < w.ctrl_hotplug.min_lock then
         w.ctrl_hotplug.min_lock
       else X) ∧
    (0 ≤ X → (w.ctrl_hotplug.min_lock < 0 ∨ w.ctrl_hotplug.min_lock ≤ X) →
      show_max_lock (store_max_lock e (some X) count w).1 = X) := by
  have hmain : show_max_lock (store_max_lock e (some X) count w).1 =
      (if X < 0 then -1
       else if w.ctrl_hotplug.min_lock ≥ 0 ∧ X < w.ctrl_hotplug.min_lock then
         w.ctrl_hotplug.min_lock
       else X) := by
    by_cases hneg : X < 0
    · have h1 : ¬ X ≥ (MAX_HSTATE : Int) := by omega
      rw [store_max_lock]
      simp only [h1, hneg, hforce, if_false, if_true, ne_eq, not_true_eq_false,
        force_hstate_of_neg e X lock_field.max_lock w hneg]
      rfl
    · have hX0 : 0 ≤ X := by omega
      rw [store_max_lock_accepted e X count w hforce hX0 hX, ← max_lock_bound_eq _ _ hX0]
      simp only [hneg, if_false]
      split_ifs
      · rfl
      · rw [force_hstate_of_nonneg e _ _ w (by rw [max_lock_bound_eq _ _ hX0]; split_ifs <;> omega)]
        rfl
  refine ⟨hmain, ?_⟩
  intro hX0 hmin
  rw [hmain]
  split_ifs <;> omega

/-- C8 instance: with `min_lock = 3`, writing 4 to `max_lock` reads back 4. -/
theorem max_lock_write_read_back_witness :
    show_max_lock
      (store_max_lock (sample_env false 5000000 6000000 1 10 0) (some 4) 2 (world_locked 2 3 (-1))).1
      = 4 :=
  (max_lock_write_read_back (sample_env false 5000000 6000000 1 10 0) (world_locked 2 3 (-1)) 4 2
    (by decide) (by decide)).2 (by decide) (by decide)

/-! ## C9 -/

/-- C9, as stated, fails in both directions: at level 5 a write of 2 to `max_lock`
has bound 2, the level is not below the bound, yet only `max_lock` is stored and
level 5 stays; at level 0 a write of 3 has bound 3, the level is below the bound,
yet the driver moves to level 3 at once. -/
theorem max_lock_write_polarity :
    max_lock_bound (world_at 5).ctrl_hotplug 2 = 2 ∧
    (store_max_lock (sample_env false 5000000 6000000 1 10 0) (some 2) 2 (world_at 5)).1 =
      { world_at 5 with ctrl_hotplug := { (world_at 5).ctrl_hotplug with max_lock := 2 } } ∧
    ¬ committed
      (store_max_lock (sample_env false 5000000 6000000 1 10 0) (some 2) 2 (world_at 5)).1 2 ∧
    max_lock_bound (world_at 0).ctrl_hotplug 3 = 3 ∧
    committed
      (store_max_lock (sample_env false 5000000 6000000 1 10 0) (some 3) 2 (world_at 0)).1 3 := by
  decide

/-- C9 (amended): with no force active and `X` a valid index, let `b` be the
bound `store_max_lock` computes. If the committed level is above `b`, only
`max_lock` is set to `b` and nothing else changes. Otherwise the driver makes a
forced transition to `b` (the level committed is `b` with the screen-on ceiling
or suspended floor applied) and sets `max_lock` to `b`. -/
theorem max_lock_write_decision (e : Env) (w : World) (X : Int) (count : Nat)
    (hforce : w.ctrl_hotplug.force_hstate = -1) (hX0 : 0 ≤ X) (hX : X < MAX_HSTATE)
    (hok : level_ok w) :
    (max_lock_bound w.ctrl_hotplug X < w.ctrl_hotplug.old_state →
      (store_max_lock e (some X) count w).1 =
        { w with ctrl_hotplug :=
            { w.ctrl_hotplug with max_lock := max_lock_bound w.ctrl_hotplug X } }) ∧
    ((w.ctrl_hotplug.old_state : Int) ≤ max_lock_bound w.ctrl_hotplug X →
      (store_max_lock e (some X) count w).1 =
        __force_hstate e (max_lock_bound w.ctrl_hotplug X) lock_field.max_lock w ∧
      committed (store_max_lock e (some X) count w).1
        (spec_suspend_clamp e.power_suspend_active (max_lock_bound w.ctrl_hotplug X).toNat) ∧
      (store_max_lock e (some X) count w).1.ctrl_hotplug.max_lock =
        max_lock_bound w.ctrl_hotplug X) := by
  have hb0 : 0 ≤ max_lock_bound w.ctrl_hotplug X := by
    rw [max_lock_bound_eq _ _ hX0]; split_ifs <;> omega
  rw [store_max_lock_accepted e X count w hforce hX0 hX, to_int_old_state w hok]
  constructor
  · intro h
    rw [if_pos h]
  · intro h
    have hn : ¬ ((w.ctrl_hotplug.old_state : Int) > max_lock_bound w.ctrl_hotplug X) := by omega
    rw [if_neg hn]
    refine ⟨rfl, ?_, ?_⟩
    · rw [force_hstate_of_nonneg e _ _ w hb0]
      apply committed_with_lock_assign
      have hc := hotplug_enter_hstate_committed e true
        (max_lock_bound w.ctrl_hotplug X).toNat w hok.2
      rw [enter_hstate_target_force] at hc
      exact hc
    · rw [force_hstate_of_nonneg e _ _ w hb0]
      rfl

/-- C9 instance: at level 0 a write of 3 to `max_lock` moves to level 3 and stores 3. -/
theorem max_lock_write_decision_witness :
    committed
      (store_max_lock (sample_env false 5000000 6000000 1 10 0) (some 3) 2 (world_at 0)).1
      (spec_suspend_clamp false (max_lock_bound (world_at 0).ctrl_hotplug 3).toNat) ∧
    (store_max_lock (sample_env false 5000000 6000000 1 10 0) (some 3) 2
      (world_at 0)).1.ctrl_hotplug.max_lock = max_lock_bound (world_at 0).ctrl_hotplug 3 :=
  ((max_lock_write_decision (sample_env false 5000000 6000000 1 10 0) (world_at 0) 3 2
    (by decide) (by decide) (by decide) (by decide)).2 (by decide)).2

/-! ## C10 -/

/-- C10, as stated, fails: with suspend active at level 6, a write of 2 to
`min_lock` has bound 2 and `previous_level < 2` is false, yet no transition to
index 2 occurs: the suspended floor turns the forced target into 6, level 6 stays
committed and no core-power call is made. -/
theorem min_lock_write_while_suspended_stays_H6 :
    min_lock_bound (world_asleep 6).ctrl_hotplug 2 = 2 ∧
    committed
      (store_min_lock (sample_env true 5000000 6000000 1 10 0) (some 2) 2 (world_asleep 6)).1 6 ∧
    ¬ committed
      (store_min_lock (sample_env true 5000000 6000000 1 10 0) (some 2) 2 (world_asleep 6)).1 2 ∧
    (store_min_lock (sample_env true 5000000 6000000 1 10 0) (some 2) 2
      (world_asleep 6)).1.power_calls = [] ∧
    num_online_cpus
      (store_min_lock (sample_env true 5000000 6000000 1 10 0) (some 2) 2 (world_asleep 6)).1
      = 2 := by
  decide

/-- C10 (amended): with no force active and `X` a valid index, let `b` be the
bound `store_min_lock` computes. If `old_state < b`, only `min_lock` is set to `b`
and nothing else changes. Otherwise `min_lock` is set to `b` and the driver makes
a forced transition whose committed level is `b` with the screen-on ceiling or
suspended floor applied (so `b` itself when awake and `b ≤ 6`); when that level
differs from `old_state` and the core-power driver does not fail, the online
count becomes the table value of that level, and when it equals `old_state` the
online cores are left as they were. -/
theorem min_lock_write_decision (e : Env) (w : World) (X : Int) (count : Nat)
    (hforce : w.ctrl_hotplug.force_hstate = -1) (hX0 : 0 ≤ X) (hX : X < MAX_HSTATE)
    (hok : level_ok w) :
    ((w.ctrl_hotplug.old_state : Int) < min_lock_bound w.ctrl_hotplug X →
      (store_min_lock e (some X) count w).1 =
        { w with ctrl_hotplug :=
            { w.ctrl_hotplug with min_lock := min_lock_bound w.ctrl_hotplug X } }) ∧
    (¬ (w.ctrl_hotplug.old_state : Int) < min_lock_bound w.ctrl_hotplug X →
      committed (store_min_lock e (some X) count w).1
        (spec_suspend_clamp e.power_suspend_active (min_lock_bound w.ctrl_hotplug X).toNat) ∧
      (store_min_lock e (some X) count w).1.ctrl_hotplug.min_lock =
        min_lock_bound w.ctrl_hotplug X ∧
      (e.power_suspend_active = false → min_lock_bound w.ctrl_hotplug X ≤ 6 →
        committed (store_min_lock e (some X) count w).1 (min_lock_bound w.ctrl_hotplug X).toNat) ∧
      (core_power_ok e → w.cpu_online_mask.length = NR_CPUS →
        spec_suspend_clamp e.power_suspend_active (min_lock_bound w.ctrl_hotplug X).toNat ≠
          w.ctrl_hotplug.old_state →
        num_online_cpus (store_min_lock e (some X) count w).1 =
          get_core_count
            (spec_suspend_clamp e.power_suspend_active (min_lock_bound w.ctrl_hotplug X).toNat)) ∧
      (spec_suspend_clamp e.power_suspend_active (min_lock_bound w.ctrl_hotplug X).toNat =
          w.ctrl_hotplug.old_state →
        (store_min_lock e (some X) count w).1.cpu_online_mask = w.cpu_online_mask ∧
        (store_min_lock e (some X) count w).1.power_calls = w.power_calls)) := by
  have hb0 : 0 ≤ min_lock_bound w.ctrl_hotplug X := by
    rw [min_lock_bound_eq]; split_ifs <;> omega
  rw [store_min_lock_accepted e X count w hforce hX0 hX, to_int_old_state w hok]
  constructor
  · intro h
    rw [if_pos h]
  · intro h
    rw [if_neg h, force_hstate_of_nonneg e _ _ w hb0]
    have hc := hotplug_enter_hstate_committed e true
      (min_lock_bound w.ctrl_hotplug X).toNat w hok.2
    rw [enter_hstate_target_force] at hc
    refine ⟨committed_with_lock_assign _ _ _ _ hc, rfl, ?_, ?_, ?_⟩
    · intro hs hb6
      have hcl : spec_suspend_clamp e.power_suspend_active
          (min_lock_bound w.ctrl_hotplug X).toNat = (min_lock_bound w.ctrl_hotplug X).toNat := by
        simp [spec_suspend_clamp, hs]; omega
      rw [hcl] at hc
      exact committed_with_lock_assign _ _ _ _ hc
    · intro he hlen hne
      rw [num_online_with_ctrl]
      have hn := hotplug_enter_hstate_num_online e he true
        (min_lock_bound w.ctrl_hotplug X).toNat w hlen
        (by rw [enter_hstate_target_force]; exact hne)
      rw [enter_hstate_target_force] at hn
      exact hn
    · intro heq
      have hnoop := hotplug_enter_hstate_same_level_frame e true
        (min_lock_bound w.ctrl_hotplug X).toNat w
        (by rw [enter_hstate_target_force]; exact heq)
      rw [hnoop]
      exact ⟨rfl, rfl⟩

/-- C10 instance (Scenario B): awake at level 4 with no `max_lock`, writing 2 to `min_lock` commits level 2 with six cores online. -/
theorem min_lock_write_decision_witness :
    committed
      (store_min_lock (sample_env false 5000000 6000000 1 10 0) (some 2) 2 (world_at 4)).1 2 ∧
    num_online_cpus
      (store_min_lock (sample_env false 5000000 6000000 1 10 0) (some 2) 2 (world_at 4)).1
      = get_core_count 2 ∧
    get_core_count 2 = 6 ∧
    (store_min_lock (sample_env false 5000000 6000000 1 10 0) (some 2) 2
      (world_at 4)).1.ctrl_hotplug.min_lock = 2 :=
  ⟨((min_lock_write_decision (sample_env false 5000000 6000000 1 10 0) (world_at 4) 2 2
      (by decide) (by decide) (by decide) (by decide)).2 (by decide)).2.2.1 rfl (by decide),
   ((min_lock_write_decision (sample_env false 5000000 6000000 1 10 0) (world_at 4) 2 2
      (by decide) (by decide) (by decide) (by decide)).2 (by decide)).2.2.2.1
      (sample_env_core_power_ok _ _ _ _ _ _) (by decide) (by decide),
   by decide,
   ((min_lock_write_decision (sample_env false 5000000 6000000 1 10 0) (world_at 4) 2 2
      (by decide) (by decide) (by decide) (by decide)).2 (by decide)).2.1⟩

/-! ## C11 -/

/-- C11: while a force is active (`force_hstate` is not -1), every accepted write
to `max_lock` or `min_lock` (a level index or a negative value) returns the byte
count and leaves the whole world unchanged. -/
theorem lock_writes_under_force_are_noops (e : Env) (w : World) (X : Int) (count : Nat)
    (hforce : w.ctrl_hotplug.force_hstate ≠ -1) (hX : X < MAX_HSTATE) :
    store_max_lock e (some X) count w = (w, (count : Int)) ∧
    store_min_lock e (some X) count w = (w, (count : Int)) := by
  have h1 : ¬ X ≥ (MAX_HSTATE : Int) := by omega
  constructor
  · rw [store_max_lock]
    simp only [h1, hforce, if_false, ne_eq, not_false_eq_true, if_true]
  · rw [store_min_lock]
    simp only [h1, hforce, if_false, ne_eq, not_false_eq_true, if_true]

/-- C11 instance: forced at level 3, writing 5 to either lock changes nothing. -/
theorem lock_writes_under_force_are_noops_witness :
    store_max_lock (sample_env false 5000000 6000000 1 10 0) (some 5) 2 (world_forced 3)
      = (world_forced 3, 2) ∧
    store_min_lock (sample_env false 5000000 6000000 1 10 0) (some 5) 2 (world_forced 3)
      = (world_forced 3, 2) :=
  lock_writes_under_force_are_noops (sample_env false 5000000 6000000 1 10 0) (world_forced 3) 5 2
    (by decide) (by decide)

/-! ## Helper lemmas: how the stores judge the stored value -/

theorem store_stored_value_cases (e : Env) (w : World) (count : Nat) :
    (∀ v : Int, v ≥ MAX_HSTATE →
      store_force_hstate e (some v) count w = (w, -EINVAL) ∧
      store_min_lock e (some v) count w = (w, -EINVAL) ∧
      store_max_lock e (some v) count w = (w, -EINVAL)) ∧
    (∀ v : Int, v < 0 →
      store_force_hstate e (some v) count w =
        ({ w with ctrl_hotplug := { w.ctrl_hotplug with force_hstate := -1 } }, (count : Int)) ∧
      (w.ctrl_hotplug.force_hstate = -1 →
        store_min_lock e (some v) count w =
          ({ w with ctrl_hotplug := { w.ctrl_hotplug with min_lock := -1 } }, (count : Int)) ∧
        store_max_lock e (some v) count w =
          ({ w with ctrl_hotplug := { w.ctrl_hotplug with max_lock := -1 } }, (count : Int)))) := by
  refine ⟨?_, ?_⟩
  · intro v hv
    refine ⟨?_, ?_, ?_⟩
    · rw [store_force_hstate]; simp only [hv, if_true]
    · rw [store_min_lock]; simp only [hv, if_true]
    · rw [store_max_lock]; simp only [hv, if_true]
  · intro v hv
    have h1 : ¬ v ≥ (MAX_HSTATE : Int) := by
      have : (MAX_HSTATE : Int) = 8 := rfl
      omega
    refine ⟨?_, ?_⟩
    · rw [store_force_hstate]
      simp only [h1, if_false, __set_force_hstate, hv, if_true]
    · intro hforce
      have hc : ¬ (w.ctrl_hotplug.force_hstate ≠ -1) := fun h => h hforce
      constructor
      · rw [store_min_lock]
        simp only [h1, hv, hc, if_false, if_true,
          force_hstate_of_neg e v lock_field.min_lock w hv]
        rfl
      · rw [store_max_lock]
        simp only [h1, hv, hc, if_false, if_true,
          force_hstate_of_neg e v lock_field.max_lock w hv]
        rfl

theorem store_force_hstate_index (e : Env) (w : World) (count : Nat) (v : Int)
    (h0 : 0 ≤ v) (h1 : v < MAX_HSTATE) :
    (store_force_hstate e (some v) count w).2 = count ∧
    (store_force_hstate e (some v) count w).1.ctrl_hotplug.force_hstate = v ∧
    (store_force_hstate e (some v) count w).1.ctrl_hotplug.old_state =
      spec_suspend_clamp e.power_suspend_active v.toNat := by
  have hge : ¬ v ≥ (MAX_HSTATE : Int) := by omega
  have hneg : ¬ v < 0 := by omega
  have hold := hotplug_enter_hstate_old_state e true v.toNat w
  rw [enter_hstate_target_force] at hold
  rw [store_force_hstate]
  simp only [hge, if_false, __set_force_hstate, hneg]
  exact ⟨trivial, trivial, hold⟩

/-! ## C12 -/

/-- C12, as stated, fails: the value -2 is neither a level index nor -1, yet a
write of -2 to `force_hstate` returns the byte count and clears the active force,
and a write of -2 to `min_lock` returns the byte count and clears `min_lock`;
and the text 4294967296, far outside `0..7`, is stored as 0 in the 32-bit
`target_state`, so a write of it to `force_hstate` returns the byte count and
forces level 0. -/
theorem negative_write_is_accepted_as_none :
    (store_force_hstate (sample_env false 5000000 6000000 1 10 0) (sscanf_d (some (-2))) 3
      (world_forced 3)).2 = 3 ∧
    (world_forced 3).ctrl_hotplug.force_hstate = 3 ∧
    (store_force_hstate (sample_env false 5000000 6000000 1 10 0) (sscanf_d (some (-2))) 3
      (world_forced 3)).1.ctrl_hotplug.force_hstate = -1 ∧
    (store_min_lock (sample_env false 5000000 6000000 1 10 0) (sscanf_d (some (-2))) 3
      (world_locked 3 5 (-1))).2 = 3 ∧
    (store_min_lock (sample_env false 5000000 6000000 1 10 0) (sscanf_d (some (-2))) 3
      (world_locked 3 5 (-1))).1.ctrl_hotplug.min_lock = -1 ∧
    (store_force_hstate (sample_env false 5000000 6000000 1 10 0)
      (sscanf_d (some 4294967296)) 11 (world_at 3)).2 = 11 ∧
    committed (store_force_hstate (sample_env false 5000000 6000000 1 10 0)
      (sscanf_d (some 4294967296)) 11 (world_at 3)).1 0 ∧
    (store_force_hstate (sample_env false 5000000 6000000 1 10 0)
      (sscanf_d (some 4294967296)) 11 (world_at 3)).1.ctrl_hotplug.force_hstate = 0 := by
  decide

/-- C12 (amended): a write to `force_hstate`, `min_lock` or `max_lock` is judged on
the value `sscanf` stores in the 32-bit `int target_state`, which is the written
integer `n` wrapped into the signed 32-bit range (`n` itself when
`-2^31 ≤ n < 2^31`). When the text holds no integer, or the stored value is 8 or
more, the write returns `-EINVAL` and leaves the whole world unchanged. When the
stored value is negative (not only -1) the write is accepted as "none": it returns
the byte count, clears `force_hstate`, and with no force active sets the written
lock to -1, changing nothing else. When the stored value is in `0..7` the write is
accepted as that index: a `force_hstate` write returns the byte count, stores the
index and commits it with the suspend clamp applied. So a written integer outside
`0..7` is rejected only if its wrapped value is 8 or more. -/
theorem invalid_write_rejected (e : Env) (w : World) (count : Nat) :
    store_force_hstate e (sscanf_d none) count w = (w, -EINVAL) ∧
    store_min_lock e (sscanf_d none) count w = (w, -EINVAL) ∧
    store_max_lock e (sscanf_d none) count w = (w, -EINVAL) ∧
    (∀ n : Int, to_int n ≥ MAX_HSTATE →
      store_force_hstate e (sscanf_d (some n)) count w = (w, -EINVAL) ∧
      store_min_lock e (sscanf_d (some n)) count w = (w, -EINVAL) ∧
      store_max_lock e (sscanf_d (some n)) count w = (w, -EINVAL)) ∧
    (∀ n : Int, to_int n < 0 →
      store_force_hstate e (sscanf_d (some n)) count w =
        ({ w with ctrl_hotplug := { w.ctrl_hotplug with force_hstate := -1 } }, (count : Int)) ∧
      (w.ctrl_hotplug.force_hstate = -1 →
        store_min_lock e (sscanf_d (some n)) count w =
          ({ w with ctrl_hotplug := { w.ctrl_hotplug with min_lock := -1 } }, (count : Int)) ∧
        store_max_lock e (sscanf_d (some n)) count w =
          ({ w with ctrl_hotplug := { w.ctrl_hotplug with max_lock := -1 } }, (count : Int)))) ∧
    (∀ n : Int, 0 ≤ to_int n → to_int n < MAX_HSTATE →
      (store_force_hstate e (sscanf_d (some n)) count w).2 = count ∧
      (store_force_hstate e (sscanf_d (some n)) count w).1.ctrl_hotplug.force_hstate =
        to_int n ∧
      (store_force_hstate e (sscanf_d (some n)) count w).1.ctrl_hotplug.old_state =
        spec_suspend_clamp e.power_suspend_active (to_int n).toNat) ∧
    (∀ n : Int, -2147483648 ≤ n → n < 2147483648 → sscanf_d (some n) = some n) ∧
    (∀ n : Int, sscanf_d (some (n + 4294967296)) = sscanf_d (some n)) := by
  have hs := store_stored_value_cases e w count
  refine ⟨rfl, rfl, rfl, ?_, ?_, ?_, ?_, ?_⟩
  · intro n hn
    exact hs.1 (to_int n) hn
  · intro n hn
    exact hs.2 (to_int n) hn
  · intro n h0 h1
    exact store_force_hstate_index e w count (to_int n) h0 h1
  · intro n h0 h1
    show some (to_int n) = some n
    rw [to_int_of_range n h0 h1]
  · intro n
    show some (to_int (n + 4294967296)) = some (to_int n)
    congr 1
    unfold to_int
    omega

/-- C12 instance: the text 4294967304 is stored as 8, so a write of it to each of
the three attributes at level 3 is rejected. -/
theorem invalid_write_rejected_witness :
    store_force_hstate (sample_env false 5000000 6000000 1 10 0) (sscanf_d (some 4294967304)) 2
      (world_at 3) = (world_at 3, -EINVAL) ∧
    store_min_lock (sample_env false 5000000 6000000 1 10 0) (sscanf_d (some 4294967304)) 2
      (world_at 3) = (world_at 3, -EINVAL) ∧
    store_max_lock (sample_env false 5000000 6000000 1 10 0) (sscanf_d (some 4294967304)) 2
      (world_at 3) = (world_at 3, -EINVAL) :=
  (invalid_write_rejected (sample_env false 5000000 6000000 1 10 0) (world_at 3) 2).2.2.2.1
    4294967304 (by decide)

/-! ## Helper lemmas: the decider under boost -/

theorem select_up_down_boosted (e : Env) (w : World)
    (hb : e.gpu_get_load ≥ w.ctrl_hotplug.gpu_load_threshold) :
    select_up_down e w =
      (if atomic_inc w.freq_history_UP > to_int w.ctrl_hotplug.up_threshold then
        ({ w with freq_history_UP := atomic_inc w.freq_history_UP, freq_history_DOWN := 0 },
          action.UP)
      else if (0 : Int) > to_int w.ctrl_hotplug.down_threshold then
        ({ w with freq_history_UP := atomic_inc w.freq_history_UP, freq_history_DOWN := 0 },
          action.DOWN)
      else
        ({ w with freq_history_UP := atomic_inc w.freq_history_UP, freq_history_DOWN := 0 },
          action.STAY)) := by
  rw [select_up_down]
  simp only [hb, decide_True, Bool.not_true, Bool.false_eq_true, and_false, or_true, if_true,
    if_false]

/-! ## C13 -/

/-- C13, as stated, fails: at level 4 with both streaks 0 and `up_threshold = 3`, a
sample with GPU load 90 (boost active) makes the decider return STAY with
`up_streak = 1`, and the candidate level of that tick is 4, not 0. -/
theorem boost_first_tick_holds :
    (sample_env false 0 0 1 10 90).gpu_get_load ≥ (world_at 4).ctrl_hotplug.gpu_load_threshold ∧
    (select_up_down (sample_env false 0 0 1 10 90) (world_at 4)).2 = action.STAY ∧
    (select_up_down (sample_env false 0 0 1 10 90) (world_at 4)).1.freq_history_UP = 1 ∧
    hotplug_adjust_state (select_up_down (sample_env false 0 0 1 10 90) (world_at 4)).2
      (world_at 4).ctrl_hotplug = 4 := by
  decide

/-- C13 (amended): on a tick with boost active (GPU load at or above
`gpu_load_threshold`), whatever the CPU load and task counts, the decider adds one
to `up_streak` and resets `down_streak`; with `up_streak` in `0 .. INT_MAX - 1` and
`up_threshold` below 2^31 it returns UP exactly when the prior `up_streak` is at
least `up_threshold`, and then the candidate level is `old_state - 4` clamped to 0. -/
theorem boost_counts_towards_increase (e : Env) (w : World)
    (hb : e.gpu_get_load ≥ w.ctrl_hotplug.gpu_load_threshold)
    (hu0 : 0 ≤ w.freq_history_UP) (hu1 : w.freq_history_UP < INT_MAX)
    (htu : w.ctrl_hotplug.up_threshold < 2147483648) :
    (select_up_down e w).1.freq_history_UP = w.freq_history_UP + 1 ∧
    (select_up_down e w).1.freq_history_DOWN = 0 ∧
    ((select_up_down e w).2 = action.UP ↔
      w.freq_history_UP ≥ (w.ctrl_hotplug.up_threshold : Int)) ∧
    ((select_up_down e w).2 = action.UP →
      (hotplug_adjust_state (select_up_down e w).2 (select_up_down e w).1.ctrl_hotplug : Int) =
        max ((w.ctrl_hotplug.old_state : Int) - 4) 0) := by
  have hsel := select_up_down_boosted e w hb
  have hinc : atomic_inc w.freq_history_UP = w.freq_history_UP + 1 := by
    unfold atomic_inc to_int
    unfold INT_MAX at hu1
    omega
  have hthr : to_int (w.ctrl_hotplug.up_threshold : Int) = w.ctrl_hotplug.up_threshold :=
    to_int_of_range _ (by omega) (by omega)
  rw [hinc, hthr] at hsel
  clear hinc hthr hu0 hu1 htu hb
  by_cases h : w.freq_history_UP + 1 > (w.ctrl_hotplug.up_threshold : Int)
  · rw [if_pos h] at hsel
    rw [hsel]
    refine ⟨rfl, rfl, ⟨fun _ => by omega, fun _ => rfl⟩, ?_⟩
    intro _
    simp only [hotplug_adjust_state]
    simp
    split_ifs <;> omega
  · rw [if_neg h] at hsel
    have hne : (select_up_down e w).2 ≠ action.UP := by
      rw [hsel]; split_ifs <;> simp
    have h1 : (select_up_down e w).1 =
        { w with freq_history_UP := w.freq_history_UP + 1, freq_history_DOWN := 0 } := by
      rw [hsel]; split_ifs <;> rfl
    refine ⟨by rw [h1], by rw [h1], ⟨fun hu => absurd hu hne, fun hge => by omega⟩, ?_⟩
    intro hu
    exact absurd hu hne

/-- C13 instance: at level 6 with `up_streak = up_threshold = 3`, a boosted sample
returns UP and the candidate is level 2. -/
theorem boost_counts_towards_increase_witness :
    (select_up_down (sample_env false 0 0 1 10 90) (with_streaks (world_at 6) 3 0)).2
      = action.UP ∧
    (hotplug_adjust_state
      (select_up_down (sample_env false 0 0 1 10 90) (with_streaks (world_at 6) 3 0)).2
      (select_up_down (sample_env false 0 0 1 10 90)
        (with_streaks (world_at 6) 3 0)).1.ctrl_hotplug : Int) = 2 := by
  have h := boost_counts_towards_increase (sample_env false 0 0 1 10 90)
    (with_streaks (world_at 6) 3 0) (by decide) (by decide) (by decide) (by decide)
  have hu := h.2.2.1.2 (by decide)
  exact ⟨hu, by rw [h.2.2.2 hu]; decide⟩

/-! ## Helper lemmas: the calls issued by the core-power loop -/

theorem hotplug_cpu_loop_up_calls (e : Env) (he : core_power_ok e) (t : Nat) (k i : Nat)
    (w : World) (hlen : w.cpu_online_mask.length = i + k) (hle : num_online_cpus w ≤ t) :
    ∃ calls, (hotplug_cpu_loop e t k i w).power_calls = w.power_calls ++ calls ∧
      (∀ c ∈ calls, power_call.is_up c = true) ∧
      calls.length + num_online_cpus w = num_online_cpus (hotplug_cpu_loop e t k i w) := by
  induction k generalizing i w with
  | zero => exact ⟨[], by simp [hotplug_cpu_loop]⟩
  | succ k ih =>
    simp only [hotplug_cpu_loop]
    split
    · exact ⟨[], by simp⟩
    · split
      · split
        · rename_i hoff
          have hoff2 : w.cpu_online_mask.getD i false = false := by
            simpa [cpu_online] using hoff
          have hset : (do_cpu_up e i w).cpu_online_mask = w.cpu_online_mask.set i true := by
            simp [do_cpu_up, he.1]
          have hcnt : num_online_cpus (do_cpu_up e i w) = num_online_cpus w + 1 := by
            unfold num_online_cpus
            rw [hset, count_set_true _ _ hoff2 (by omega)]
          obtain ⟨calls, h1, h2, h3⟩ := ih (i + 1) (do_cpu_up e i w)
            (by rw [hset]; simp; omega) (by omega)
          refine ⟨power_call.cpu_up i :: calls, ?_, ?_, ?_⟩
          · rw [h1]; simp [do_cpu_up]
          · intro c hc
            rcases List.mem_cons.mp hc with rfl | hc
            · rfl
            · exact h2 c hc
          · rw [← h3, hcnt]; simp; omega
        · exact ih (i + 1) w (by omega) hle
      · omega

theorem hotplug_cpu_loop_down_calls (e : Env) (he : core_power_ok e) (t : Nat) (k i : Nat)
    (w : World) (hge : t ≤ num_online_cpus w) :
    ∃ calls, (hotplug_cpu_loop e t k i w).power_calls = w.power_calls ++ calls ∧
      (∀ c ∈ calls, power_call.is_up c = false) ∧
      calls.length + num_online_cpus (hotplug_cpu_loop e t k i w) = num_online_cpus w := by
  induction k generalizing i w with
  | zero => exact ⟨[], by simp [hotplug_cpu_loop]⟩
  | succ k ih =>
    simp only [hotplug_cpu_loop]
    split
    · exact ⟨[], by simp⟩
    · split
      · omega
      · have hpos : 0 < w.cpu_online_mask.count true := by
          unfold num_online_cpus at *
          omega
        have hlb := he.2.2 w.cpu_online_mask hpos
        have hset : (do_cpu_down e (e.get_least_busy_cpu w.cpu_online_mask) w).cpu_online_mask
            = w.cpu_online_mask.set (e.get_least_busy_cpu w.cpu_online_mask) false := by
          simp [do_cpu_down, he.2.1]
        have hcnt : num_online_cpus (do_cpu_down e (e.get_least_busy_cpu w.cpu_online_mask) w) + 1
            = num_online_cpus w := by
          unfold num_online_cpus
          rw [hset]
          exact count_set_false _ _ hlb
        obtain ⟨calls, h1, h2, h3⟩ :=
          ih (i + 1) (do_cpu_down e (e.get_least_busy_cpu w.cpu_online_mask) w) (by omega)
        refine ⟨power_call.cpu_down (e.get_least_busy_cpu w.cpu_online_mask) :: calls, ?_, ?_, ?_⟩
        · rw [h1]; simp [do_cpu_down]
        · intro c hc
          rcases List.mem_cons.mp hc with rfl | hc
          · rfl
          · exact h2 c hc
        · rw [← hcnt, ← h3]; simp; omega

/-! ## C17 -/

/-- C17: with eight cores, a core-power driver that never fails and a least-busy
core that is online, `hotplug_cpu` ends with the online count equal to
`get_core_count state` for every online mask and every level, after at most
`NR_CPUS` core-power calls (exactly the distance between target and online
count); it only brings cores online when the target exceeds the online count,
only takes cores offline when it is below, and makes no call when they agree. -/
theorem hotplug_cpu_convergence (e : Env) (he : core_power_ok e) (state : Nat) (w : World)
    (hlen : w.cpu_online_mask.length = NR_CPUS) :
    num_online_cpus (hotplug_cpu e state w) = get_core_count state ∧
    ∃ calls, (hotplug_cpu e state w).power_calls = w.power_calls ++ calls ∧
      calls.length ≤ NR_CPUS ∧
      (num_online_cpus w ≤ get_core_count state →
        (∀ c ∈ calls, power_call.is_up c = true) ∧
        calls.length + num_online_cpus w = get_core_count state) ∧
      (get_core_count state ≤ num_online_cpus w →
        (∀ c ∈ calls, power_call.is_up c = false) ∧
        calls.length + get_core_count state = num_online_cpus w) := by
  have hconv := hotplug_cpu_converges e he state w hlen
  have htl := get_core_count_le state
  have hc8 : num_online_cpus w ≤ NR_CPUS := by
    unfold num_online_cpus
    rw [← hlen]
    exact List.count_le_length _ _
  refine ⟨hconv, ?_⟩
  unfold hotplug_cpu at hconv ⊢
  by_cases h : num_online_cpus w ≤ get_core_count state
  · obtain ⟨calls, h1, h2, h3⟩ := hotplug_cpu_loop_up_calls e he (get_core_count state)
      NR_CPUS 0 w (by simpa using hlen) h
    rw [hconv] at h3
    refine ⟨calls, h1, by omega, fun _ => ⟨h2, h3⟩, fun hge => ⟨?_, by omega⟩⟩
    have h0 : calls.length = 0 := by omega
    have : calls = [] := List.length_eq_zero.mp h0
    subst this
    intro c hc
    simp at hc
  · obtain ⟨calls, h1, h2, h3⟩ := hotplug_cpu_loop_down_calls e he (get_core_count state)
      NR_CPUS 0 w (by omega)
    rw [hconv] at h3
    exact ⟨calls, h1, by omega, fun hle => absurd hle h, fun _ => ⟨h2, h3⟩⟩

/-- C17 instance: from level 0 with all cores online, `hotplug_cpu H5` leaves three
cores online. -/
theorem hotplug_cpu_convergence_witness :
    num_online_cpus (hotplug_cpu (sample_env false 0 0 1 10 0) H5 (world_at 0))
      = get_core_count H5 ∧ get_core_count H5 = 3 :=
  ⟨(hotplug_cpu_convergence (sample_env false 0 0 1 10 0)
      (sample_env_core_power_ok _ _ _ _ _ _) H5 (world_at 0) (by decide)).1, by decide⟩

/-! ## Helper lemmas: the usage ledger -/

theorem getD_set_ne (u : List Nat) (i j v : Nat) (h : i ≠ j) :
    (u.set j v).getD i 0 = u.getD i 0 := by
  induction u generalizing i j with
  | nil => simp
  | cons a u ih =>
    cases j with
    | zero =>
      cases i with
      | zero => exact absurd rfl h
      | succ i => simp
    | succ j =>
      cases i with
      | zero => simp
      | succ i => simpa using ih i j (by omega)

theorem getD_set_eq (u : List Nat) (j v : Nat) (h : j < u.length) :
    (u.set j v).getD j 0 = v := by
  induction u generalizing j with
  | nil => simp at h
  | cons a u ih =>
    cases j with
    | zero => simp
    | succ j => simpa using ih j (by simpa using h)

theorem usage_add_ne (u : List Nat) (i j : Nat) (d : Int) (h : i ≠ j) :
    (usage_add u j d).getD i 0 = u.getD i 0 :=
  getD_set_ne u i j _ h

theorem usage_add_eq (u : List Nat) (j : Nat) (d : Int) (h : j < u.length) :
    (usage_add u j d).getD j 0 = to_ulong ((u.getD j 0 : Nat) + d) :=
  getD_set_eq u j _ h

theorem usage_add_length (u : List Nat) (j : Nat) (d : Int) :
    (usage_add u j d).length = u.length := by
  unfold usage_add
  simp

theorem hotplug_update_time_status_eq (t : Int) (c : exynos_hotplug_ctrl) :
    hotplug_update_time_status t c =
      ({ c with usage := usage_add c.usage c.old_state (time_status_diff t c.last_time),
                last_time := t }, time_status_diff t c.last_time) := rfl

theorem hotplug_enter_hstate_transition (e : Env) (force : Bool) (state : Nat) (w : World)
    (hne : enter_hstate_target e.power_suspend_active force state w.ctrl_hotplug ≠
      w.ctrl_hotplug.old_state) :
    (hotplug_enter_hstate e force state w).freq_history_UP = 0 ∧
    (hotplug_enter_hstate e force state w).freq_history_DOWN = 0 ∧
    (hotplug_enter_hstate e force state w).ctrl_hotplug =
      { (hotplug_update_time_status e.ktime_get_2
          (hotplug_update_time_status e.ktime_get_1 w.ctrl_hotplug).1).1 with
        old_state := enter_hstate_target e.power_suspend_active force state w.ctrl_hotplug,
        cur_hstate := enter_hstate_target e.power_suspend_active force state w.ctrl_hotplug } := by
  have hne2 : ¬ (w.ctrl_hotplug.old_state =
      enter_hstate_target e.power_suspend_active force state w.ctrl_hotplug) :=
    fun h => hne h.symm
  rw [hotplug_enter_hstate]
  simp only [hne2, if_false, (hotplug_cpu_frame e _ _).1]
  exact ⟨trivial, trivial, trivial⟩

/-! ## C19 -/

/-- C19: when the clamped level `f` differs from `old_state = p`,
`hotplug_enter_hstate` ends with both streaks 0 and `old_state = cur_hstate = f`;
the two flushes of the call go to `usage[p]` only (first the time up to the first
clock reading, then the time between the two readings), every other usage entry
including that of `f` is unchanged, `last_time` is the second reading, and any
later flush changes no entry but that of `f`. -/
theorem transition_postcondition (e : Env) (force : Bool) (state : Nat) (w : World)
    (hne : enter_hstate_target e.power_suspend_active force state w.ctrl_hotplug ≠
      w.ctrl_hotplug.old_state) :
    (hotplug_enter_hstate e force state w).freq_history_UP = 0 ∧
    (hotplug_enter_hstate e force state w).freq_history_DOWN = 0 ∧
    committed (hotplug_enter_hstate e force state w)
      (enter_hstate_target e.power_suspend_active force state w.ctrl_hotplug) ∧
    (∀ i, i ≠ w.ctrl_hotplug.old_state →
      (hotplug_enter_hstate e force state w).ctrl_hotplug.usage.getD i 0 =
        w.ctrl_hotplug.usage.getD i 0) ∧
    (w.ctrl_hotplug.old_state < w.ctrl_hotplug.usage.length →
      (hotplug_enter_hstate e force state w).ctrl_hotplug.usage.getD w.ctrl_hotplug.old_state 0 =
        to_ulong
          ((to_ulong ((w.ctrl_hotplug.usage.getD w.ctrl_hotplug.old_state 0 : Nat) +
              time_status_diff e.ktime_get_1 w.ctrl_hotplug.last_time) : Nat) +
            time_status_diff e.ktime_get_2 e.ktime_get_1)) ∧
    (hotplug_enter_hstate e force state w).ctrl_hotplug.last_time = e.ktime_get_2 ∧
    (∀ (t : Int) (i : Nat),
      i ≠ enter_hstate_target e.power_suspend_active force state w.ctrl_hotplug →
      (hotplug_update_time_status t
          (hotplug_enter_hstate e force state w).ctrl_hotplug).1.usage.getD i 0 =
        (hotplug_enter_hstate e force state w).ctrl_hotplug.usage.getD i 0) := by
  obtain ⟨hu, hd, hc⟩ := hotplug_enter_hstate_transition e force state w hne
  refine ⟨hu, hd, ?_, ?_, ?_, ?_, ?_⟩
  · unfold committed
    rw [hc]
    exact ⟨rfl, rfl⟩
  · intro i hi
    rw [hc]
    simp only [hotplug_update_time_status_eq]
    rw [usage_add_ne _ _ _ _ hi, usage_add_ne _ _ _ _ hi]
  · intro hp
    rw [hc]
    simp only [hotplug_update_time_status_eq]
    rw [usage_add_eq _ _ _ (by rw [usage_add_length]; exact hp), usage_add_eq _ _ _ hp]
  · rw [hc]
    rfl
  · intro t i hi
    rw [hc]
    simp only [hotplug_update_time_status_eq]
    rw [usage_add_ne _ _ _ _ hi]

/-- C19 instance: awake at level 0 with last flush at 0 ms, an unforced move to
level 1 read at 5 ms and 7 ms adds 7 ms to `usage[0]` and nothing to `usage[1]`. -/
theorem transition_postcondition_witness :
    committed (hotplug_enter_hstate (sample_env false 5000000 7000000 1 10 0) false 1 (world_at 0)) 1 ∧
    (hotplug_enter_hstate (sample_env false 5000000 7000000 1 10 0) false 1
      (world_at 0)).ctrl_hotplug.usage = [7, 0, 0, 0, 0, 0, 0, 0] :=
  ⟨(transition_postcondition (sample_env false 5000000 7000000 1 10 0) false 1 (world_at 0)
      (by decide)).2.2.1, by decide⟩

/-! ## Helper lemmas: the well-formedness invariant -/

theorem state_ok_of_fields (w w2 : World)
    (h1 : w2.ctrl_hotplug.old_state = w.ctrl_hotplug.old_state)
    (h2 : w2.ctrl_hotplug.cur_hstate = w.ctrl_hotplug.cur_hstate)
    (h3 : w2.ctrl_hotplug.force_hstate = w.ctrl_hotplug.force_hstate)
    (h4 : w2.ctrl_hotplug.min_lock = w.ctrl_hotplug.min_lock)
    (h5 : w2.ctrl_hotplug.max_lock = w.ctrl_hotplug.max_lock)
    (h : state_ok w) : state_ok w2 := by
  unfold state_ok level_ok at *
  rw [h1, h2, h3, h4, h5]
  exact h

theorem spec_suspend_clamp_lt (s : Bool) (c : Nat) (h : c < MAX_HSTATE) :
    spec_suspend_clamp s c < MAX_HSTATE := by
  unfold spec_suspend_clamp
  have : MAX_HSTATE = 8 := rfl
  split_ifs <;> omega

theorem enter_hstate_target_lt (s force : Bool) (state : Nat) (c : exynos_hotplug_ctrl)
    (hs : state < MAX_HSTATE) (hmax : lock_ok c.max_lock) :
    enter_hstate_target s force state c < MAX_HSTATE := by
  cases force with
  | true =>
    rw [enter_hstate_target_force]
    exact spec_suspend_clamp_lt s state hs
  | false =>
    rw [enter_hstate_target_unforced]
    unfold spec_bounds_clamp
    apply spec_suspend_clamp_lt
    have h8 : MAX_HSTATE = 8 := rfl
    have h8i : (MAX_HSTATE : Int) = 8 := rfl
    unfold lock_ok at hmax
    unfold lock_value
    generalize c.min_lock = a at *
    generalize c.max_lock = b at *
    by_cases ha : a ≥ 0 <;> by_cases hb : b ≥ 0 <;> simp only [ha, hb, if_true, if_false] <;>
      (try split_ifs) <;> omega

theorem hotplug_adjust_state_lt (move : action) (c : exynos_hotplug_ctrl)
    (h : c.old_state < MAX_HSTATE) : hotplug_adjust_state move c < MAX_HSTATE := by
  have h8 : MAX_HSTATE = 8 := rfl
  cases move <;> simp only [hotplug_adjust_state, MAX_HSTATE] <;> simp <;>
    (try split_ifs) <;> omega

theorem hotplug_enter_hstate_state_ok (e : Env) (force : Bool) (state : Nat) (w : World)
    (hs : state < MAX_HSTATE) (h : state_ok w) :
    state_ok (hotplug_enter_hstate e force state w) := by
  have hf := hotplug_enter_hstate_ctrl_frame e force state w
  have hc := hotplug_enter_hstate_committed e force state w h.1.2
  have ht := enter_hstate_target_lt e.power_suspend_active force state w.ctrl_hotplug hs
    h.2.2.2
  unfold state_ok level_ok
  rw [hf.2.1, hf.2.2.1, hf.2.2.2, hc.1, hc.2]
  exact ⟨⟨ht, rfl⟩, h.2.1, h.2.2.1, h.2.2.2⟩

theorem state_ok_with_sampling_rate (w : World) (r : Nat) (h : state_ok w) :
    state_ok { w with ctrl_hotplug := { w.ctrl_hotplug with sampling_rate := r } } := h

theorem state_ok_with_force_hstate (w : World) (v : Int) (hv : lock_ok v) (h : state_ok w) :
    state_ok { w with ctrl_hotplug := { w.ctrl_hotplug with force_hstate := v } } :=
  ⟨h.1, hv, h.2.2.1, h.2.2.2⟩

theorem state_ok_with_lock_assign (w : World) (f : lock_field) (v : Int) (hv : lock_ok v)
    (h : state_ok w) :
    state_ok { w with ctrl_hotplug := f.assign v w.ctrl_hotplug } := by
  cases f
  · exact ⟨h.1, h.2.1, h.2.2.1, hv⟩
  · exact ⟨h.1, h.2.1, hv, h.2.2.2⟩

theorem state_ok_with_tunable (w : World) (t : tunable) (v : Nat) (h : state_ok w) :
    state_ok { w with ctrl_hotplug := t.assign v w.ctrl_hotplug } := by
  cases t <;> exact h

theorem state_ok_with_time_status (w : World) (t : Int) (h : state_ok w) :
    state_ok { w with ctrl_hotplug := (hotplug_update_time_status t w.ctrl_hotplug).1 } := h

theorem lock_ok_of_index (v : Int) (h0 : 0 ≤ v) (h1 : v < MAX_HSTATE) : lock_ok v :=
  Or.inr ⟨h0, h1⟩

theorem lock_ok_neg_one : lock_ok (-1) := Or.inl rfl

theorem toNat_lt_max (v : Int) (h1 : v < MAX_HSTATE) : v.toNat < MAX_HSTATE := by
  have h8 : (MAX_HSTATE : Int) = 8 := rfl
  have h8n : MAX_HSTATE = 8 := rfl
  omega

theorem exynos_work_state_ok (e : Env) (w : World) (h : state_ok w) :
    state_ok (exynos_work e w) := by
  have hf := select_up_down_frame e w
  have h1 : state_ok (select_up_down e w).1 :=
    state_ok_of_fields w _ (by rw [hf.1]) (by rw [hf.1]) (by rw [hf.1]) (by rw [hf.1])
      (by rw [hf.1]) h
  unfold exynos_work
  simp only
  split_ifs
  · exact state_ok_with_sampling_rate _ _
      (hotplug_enter_hstate_state_ok e false SUSPENDED_MIN_STATE _ (by decide) h1)
  · exact state_ok_with_sampling_rate _ _
      (hotplug_enter_hstate_state_ok e true WAKE_UP_STATE _ (by decide) h1)
  · exact hotplug_enter_hstate_state_ok e false _ _
      (hotplug_adjust_state_lt _ _ h1.1.1) h1
  · exact h1

theorem set_force_hstate_state_ok (e : Env) (v : Int) (w : World) (hv : v < MAX_HSTATE)
    (h : state_ok w) : state_ok (__set_force_hstate e v w) := by
  rw [__set_force_hstate]
  split_ifs with hneg
  · exact state_ok_with_force_hstate _ _ lock_ok_neg_one h
  · exact state_ok_with_force_hstate _ _ (lock_ok_of_index v (by omega) hv)
      (hotplug_enter_hstate_state_ok e true _ _ (toNat_lt_max v hv) h)

theorem force_hstate_state_ok (e : Env) (v : Int) (f : lock_field) (w : World)
    (hv : v < MAX_HSTATE) (h : state_ok w) : state_ok (__force_hstate e v f w) := by
  rw [__force_hstate]
  split_ifs with hneg
  · exact state_ok_with_lock_assign _ _ _ lock_ok_neg_one h
  · exact state_ok_with_lock_assign _ _ _ (lock_ok_of_index v (by omega) hv)
      (hotplug_enter_hstate_state_ok e true _ _ (toNat_lt_max v hv) h)

theorem store_force_hstate_state_ok (e : Env) (buf : Option Int) (count : Nat) (w : World)
    (h : state_ok w) : state_ok (store_force_hstate e buf count w).1 := by
  cases buf with
  | none => exact h
  | some v =>
    rw [store_force_hstate]
    split_ifs with hv
    · exact h
    · exact set_force_hstate_state_ok e v w (by omega) h

theorem max_lock_bound_range (c : exynos_hotplug_ctrl) (X : Int) (hX0 : 0 ≤ X)
    (hX : X < MAX_HSTATE) (hmin : lock_ok c.min_lock) :
    0 ≤ max_lock_bound c X ∧ max_lock_bound c X < MAX_HSTATE := by
  rw [max_lock_bound_eq c X hX0]
  unfold lock_ok at hmin
  split_ifs <;> omega

theorem min_lock_bound_range (c : exynos_hotplug_ctrl) (X : Int) (hX0 : 0 ≤ X)
    (hX : X < MAX_HSTATE) (hmax : lock_ok c.max_lock) :
    0 ≤ min_lock_bound c X ∧ min_lock_bound c X < MAX_HSTATE := by
  rw [min_lock_bound_eq c X]
  unfold lock_ok at hmax
  split_ifs <;> omega

theorem store_max_lock_state_ok (e : Env) (buf : Option Int) (count : Nat) (w : World)
    (h : state_ok w) : state_ok (store_max_lock e buf count w).1 := by
  cases buf with
  | none => exact h
  | some v =>
    by_cases hv : v ≥ (MAX_HSTATE : Int)
    · rw [store_max_lock]; simp only [hv, if_true]; exact h
    · by_cases hforce : w.ctrl_hotplug.force_hstate ≠ -1
      · rw [store_max_lock]
        simp only [hv, hforce, if_false, ne_eq, not_false_eq_true, if_true]
        exact h
      · by_cases hneg : v < 0
        · rw [store_max_lock]
          simp only [hv, hforce, hneg, if_false, if_true]
          exact force_hstate_state_ok e v _ w (by omega) h
        · have hforce2 : w.ctrl_hotplug.force_hstate = -1 := by
            by_contra hc; exact hforce hc
          have hb := max_lock_bound_range w.ctrl_hotplug v (by omega) (by omega) h.2.2.1
          rw [store_max_lock_accepted e v count w hforce2 (by omega) (by omega)]
          split_ifs
          · exact ⟨h.1, h.2.1, h.2.2.1, lock_ok_of_index _ hb.1 hb.2⟩
          · exact force_hstate_state_ok e _ _ w hb.2 h

theorem store_min_lock_state_ok (e : Env) (buf : Option Int) (count : Nat) (w : World)
    (h : state_ok w) : state_ok (store_min_lock e buf count w).1 := by
  cases buf with
  | none => exact h
  | some v =>
    by_cases hv : v ≥ (MAX_HSTATE : Int)
    · rw [store_min_lock]; simp only [hv, if_true]; exact h
    · by_cases hforce : w.ctrl_hotplug.force_hstate ≠ -1
      · rw [store_min_lock]
        simp only [hv, hforce, if_false, ne_eq, not_false_eq_true, if_true]
        exact h
      · by_cases hneg : v < 0
        · rw [store_min_lock]
          simp only [hv, hforce, hneg, if_false, if_true]
          exact force_hstate_state_ok e v _ w (by omega) h
        · have hforce2 : w.ctrl_hotplug.force_hstate = -1 := by
            by_contra hc; exact hforce hc
          have hb := min_lock_bound_range w.ctrl_hotplug v (by omega) (by omega) h.2.2.2
          rw [store_min_lock_accepted e v count w hforce2 (by omega) (by omega)]
          split_ifs
          · exact ⟨h.1, h.2.1, lock_ok_of_index _ hb.1 hb.2, h.2.2.2⟩
          · exact force_hstate_state_ok e _ _ w hb.2 h

theorem step_state_ok (e : Env) (o : op) (w : World) (h : state_ok w) :
    state_ok (step e o w) := by
  cases o with
  | tick => exact exynos_work_state_ok e w h
  | write_force_hstate buf count => exact store_force_hstate_state_ok e buf count w h
  | write_min_lock buf count => exact store_min_lock_state_ok e buf count w h
  | write_max_lock buf count => exact store_max_lock_state_ok e buf count w h
  | write_tunable t buf count =>
    cases buf with
    | error ret => exact h
    | ok value => exact state_ok_with_tunable w t value h
  | read_time_in_state => exact state_ok_with_time_status w _ h

theorem run_state_ok (trace : List (Env × op)) (w : World) (h : state_ok w) :
    state_ok (run trace w) := by
  induction trace generalizing w with
  | nil => exact h
  | cons a rest ih => exact ih _ (step_state_ok a.1 a.2 w h)

theorem World_init_state_ok (mask : List Bool) : state_ok (World_init mask) := by
  refine ⟨⟨?_, rfl⟩, Or.inl rfl, Or.inl rfl, Or.inl rfl⟩
  show (0 : Nat) < 8
  omega

/-! ## Helper lemmas: which part of the ledger an entry point touches -/

theorem ledger_eq_refl (c : exynos_hotplug_ctrl) : ledger_eq c c := ⟨rfl, rfl, rfl⟩

theorem ledger_eq_lock_assign (f : lock_field) (v : Int) (c : exynos_hotplug_ctrl) :
    ledger_eq c (f.assign v c) := by
  cases f <;> exact ⟨rfl, rfl, rfl⟩

theorem ledger_eq_tunable_assign (t : tunable) (v : Nat) (c : exynos_hotplug_ctrl) :
    ledger_eq c (t.assign v c) := by
  cases t <;> exact ⟨rfl, rfl, rfl⟩

theorem hotplug_enter_hstate_ctrl_congr (e : Env) (force : Bool) (state : Nat) (w w2 : World)
    (h : w2.ctrl_hotplug = w.ctrl_hotplug) :
    (hotplug_enter_hstate e force state w2).ctrl_hotplug =
      (hotplug_enter_hstate e force state w).ctrl_hotplug := by
  by_cases hc : enter_hstate_target e.power_suspend_active force state w.ctrl_hotplug =
      w.ctrl_hotplug.old_state
  · rw [hotplug_enter_hstate_same_level_frame e force state w hc,
      hotplug_enter_hstate_same_level_frame e force state w2 (by rw [h]; exact hc), h]
  · rw [(hotplug_enter_hstate_transition e force state w hc).2.2,
      (hotplug_enter_hstate_transition e force state w2 (by rw [h]; exact hc)).2.2, h]

theorem ctrl_with_sampling_rate_ledger (w : World) (r : Nat) :
    ledger_eq w.ctrl_hotplug
      ({ w with ctrl_hotplug := { w.ctrl_hotplug with sampling_rate := r } }).ctrl_hotplug :=
  ⟨rfl, rfl, rfl⟩

theorem exynos_work_ledger_shape (e : Env) (w : World) :
    ledger_eq w.ctrl_hotplug (exynos_work e w).ctrl_hotplug ∨
    ∃ force state, ledger_eq (hotplug_enter_hstate e force state w).ctrl_hotplug
      (exynos_work e w).ctrl_hotplug := by
  have hf := (select_up_down_frame e w).1
  by_cases h1 : e.power_suspend_active = true ∧
      w.ctrl_hotplug.sampling_rate = AWAKE_SAMPLING_RATE
  · right
    refine ⟨false, SUSPENDED_MIN_STATE, ?_⟩
    rw [exynos_work_suspend_edge e w h1.1 h1.2,
      ← hotplug_enter_hstate_ctrl_congr e false SUSPENDED_MIN_STATE w (select_up_down e w).1 hf]
    exact ctrl_with_sampling_rate_ledger _ _
  · by_cases h2 : e.power_suspend_active = false ∧
        w.ctrl_hotplug.sampling_rate = ASLEEP_SAMPLING_RATE
    · right
      refine ⟨true, WAKE_UP_STATE, ?_⟩
      rw [exynos_work_wake_edge e w h2.1 h2.2,
        ← hotplug_enter_hstate_ctrl_congr e true WAKE_UP_STATE w (select_up_down e w).1 hf]
      exact ctrl_with_sampling_rate_ledger _ _
    · have h2b : ¬ ((!e.power_suspend_active) = true ∧
          w.ctrl_hotplug.sampling_rate = ASLEEP_SAMPLING_RATE) := by
        intro hc
        exact h2 ⟨by simpa using hc.1, hc.2⟩
      unfold exynos_work
      simp only [hf, h1, h2b, if_false]
      split_ifs
      · right
        refine ⟨false, hotplug_adjust_state (select_up_down e w).2 w.ctrl_hotplug, ?_⟩
        rw [hotplug_enter_hstate_ctrl_congr e false _ w (select_up_down e w).1 hf]
        exact ledger_eq_refl _
      · left
        rw [hf]
        exact ledger_eq_refl _

theorem force_hstate_ledger_shape (e : Env) (v : Int) (f : lock_field) (w : World) :
    ledger_eq w.ctrl_hotplug (__force_hstate e v f w).ctrl_hotplug ∨
    ∃ force state, ledger_eq (hotplug_enter_hstate e force state w).ctrl_hotplug
      (__force_hstate e v f w).ctrl_hotplug := by
  by_cases hneg : v < 0
  · left
    rw [force_hstate_of_neg e v f w hneg]
    exact ledger_eq_lock_assign f _ _
  · right
    refine ⟨true, v.toNat, ?_⟩
    rw [force_hstate_of_nonneg e v f w (by omega)]
    exact ledger_eq_lock_assign f _ _

theorem store_force_hstate_ledger_shape (e : Env) (buf : Option Int) (count : Nat) (w : World) :
    ledger_eq w.ctrl_hotplug (store_force_hstate e buf count w).1.ctrl_hotplug ∨
    ∃ force state, ledger_eq (hotplug_enter_hstate e force state w).ctrl_hotplug
      (store_force_hstate e buf count w).1.ctrl_hotplug := by
  cases buf with
  | none => exact Or.inl (ledger_eq_refl _)
  | some v =>
    by_cases hv : v ≥ (MAX_HSTATE : Int)
    · left
      rw [store_force_hstate]
      simp only [hv, if_true]
      exact ledger_eq_refl _
    · by_cases hneg : v < 0
      · left
        rw [store_force_hstate]
        simp only [hv, if_false, __set_force_hstate, hneg, if_true]
        exact ⟨rfl, rfl, rfl⟩
      · right
        refine ⟨true, v.toNat, ?_⟩
        rw [store_force_hstate]
        simp only [hv, if_false, __set_force_hstate, hneg]
        exact ⟨rfl, rfl, rfl⟩

theorem store_max_lock_ledger_shape (e : Env) (buf : Option Int) (count : Nat) (w : World) :
    ledger_eq w.ctrl_hotplug (store_max_lock e buf count w).1.ctrl_hotplug ∨
    ∃ force state, ledger_eq (hotplug_enter_hstate e force state w).ctrl_hotplug
      (store_max_lock e buf count w).1.ctrl_hotplug := by
  cases buf with
  | none => exact Or.inl (ledger_eq_refl _)
  | some v =>
    by_cases hv : v ≥ (MAX_HSTATE : Int)
    · left
      rw [store_max_lock]
      simp only [hv, if_true]
      exact ledger_eq_refl _
    · by_cases hforce : w.ctrl_hotplug.force_hstate ≠ -1
      · left
        rw [store_max_lock]
        simp only [hv, hforce, if_false, ne_eq, not_false_eq_true, if_true]
        exact ledger_eq_refl _
      · have hforce2 : w.ctrl_hotplug.force_hstate = -1 := by
          by_contra hc; exact hforce hc
        by_cases hneg : v < 0
        · rw [store_max_lock]
          simp only [hv, hforce, hneg, if_false, if_true]
          exact force_hstate_ledger_shape e v _ w
        · rw [store_max_lock_accepted e v count w hforce2 (by omega) (by omega)]
          split_ifs
          · exact Or.inl ⟨rfl, rfl, rfl⟩
          · exact force_hstate_ledger_shape e _ _ w

theorem store_min_lock_ledger_shape (e : Env) (buf : Option Int) (count : Nat) (w : World) :
    ledger_eq w.ctrl_hotplug (store_min_lock e buf count w).1.ctrl_hotplug ∨
    ∃ force state, ledger_eq (hotplug_enter_hstate e force state w).ctrl_hotplug
      (store_min_lock e buf count w).1.ctrl_hotplug := by
  cases buf with
  | none => exact Or.inl (ledger_eq_refl _)
  | some v =>
    by_cases hv : v ≥ (MAX_HSTATE : Int)
    · left
      rw [store_min_lock]
      simp only [hv, if_true]
      exact ledger_eq_refl _
    · by_cases hforce : w.ctrl_hotplug.force_hstate ≠ -1
      · left
        rw [store_min_lock]
        simp only [hv, hforce, if_false, ne_eq, not_false_eq_true, if_true]
        exact ledger_eq_refl _
      · have hforce2 : w.ctrl_hotplug.force_hstate = -1 := by
          by_contra hc; exact hforce hc
        by_cases hneg : v < 0
        · rw [store_min_lock]
          simp only [hv, hforce, hneg, if_false, if_true]
          exact force_hstate_ledger_shape e v _ w
        · rw [store_min_lock_accepted e v count w hforce2 (by omega) (by omega)]
          split_ifs
          · exact Or.inl ⟨rfl, rfl, rfl⟩
          · exact force_hstate_ledger_shape e _ _ w

theorem step_ledger_shape (e : Env) (o : op) (w : World) :
    ledger_eq w.ctrl_hotplug (step e o w).ctrl_hotplug ∨
    (∃ force state, ledger_eq (hotplug_enter_hstate e force state w).ctrl_hotplug
      (step e o w).ctrl_hotplug) ∨
    (step e o w).ctrl_hotplug = (hotplug_update_time_status e.ktime_get_1 w.ctrl_hotplug).1 := by
  cases o with
  | tick => exact (exynos_work_ledger_shape e w).elim Or.inl (fun h => Or.inr (Or.inl h))
  | write_force_hstate buf count =>
    exact (store_force_hstate_ledger_shape e buf count w).elim Or.inl
      (fun h => Or.inr (Or.inl h))
  | write_min_lock buf count =>
    exact (store_min_lock_ledger_shape e buf count w).elim Or.inl (fun h => Or.inr (Or.inl h))
  | write_max_lock buf count =>
    exact (store_max_lock_ledger_shape e buf count w).elim Or.inl (fun h => Or.inr (Or.inl h))
  | write_tunable t buf count =>
    cases buf with
    | error ret => exact Or.inl (ledger_eq_refl _)
    | ok value => exact Or.inl (ledger_eq_tunable_assign t value _)
  | read_time_in_state => exact Or.inr (Or.inr rfl)

theorem hotplug_enter_hstate_usage_length (e : Env) (force : Bool) (state : Nat) (w : World) :
    (hotplug_enter_hstate e force state w).ctrl_hotplug.usage.length =
      w.ctrl_hotplug.usage.length := by
  by_cases h : enter_hstate_target e.power_suspend_active force state w.ctrl_hotplug =
      w.ctrl_hotplug.old_state
  · rw [hotplug_enter_hstate_same_level_frame e force state w h]
  · rw [(hotplug_enter_hstate_transition e force state w h).2.2]
    simp only [hotplug_update_time_status_eq, usage_add_length]

theorem step_usage_length (e : Env) (o : op) (w : World) :
    (step e o w).ctrl_hotplug.usage.length = w.ctrl_hotplug.usage.length := by
  rcases step_ledger_shape e o w with h | ⟨force, state, h⟩ | h
  · rw [h.1]
  · rw [h.1, hotplug_enter_hstate_usage_length]
  · rw [h]
    simp only [hotplug_update_time_status_eq, usage_add_length]

theorem run_usage_length (trace : List (Env × op)) (w : World) :
    (run trace w).ctrl_hotplug.usage.length = w.ctrl_hotplug.usage.length := by
  induction trace generalizing w with
  | nil => rfl
  | cons a rest ih =>
    show (run rest (step a.1 a.2 w)).ctrl_hotplug.usage.length = _
    rw [ih, step_usage_length]

/-! ## C20 -/

/-- C20: every state reached from the initial state by any sequence of ticks,
writes to `force_hstate`, `min_lock`, `max_lock` and the five plain tunables
(with any input text) and reads of `time_in_state` has `cur_hstate = old_state`,
that level below `MAX_HSTATE` (so `usage` and the level table are indexed in
range), and each of `force_hstate`, `min_lock`, `max_lock` equal to -1 or to a
table index. -/
theorem reachable_state_ok (mask : List Bool) (trace : List (Env × op)) :
    (run trace (World_init mask)).ctrl_hotplug.cur_hstate =
      (run trace (World_init mask)).ctrl_hotplug.old_state ∧
    (run trace (World_init mask)).ctrl_hotplug.old_state < MAX_HSTATE ∧
    (run trace (World_init mask)).ctrl_hotplug.old_state <
      (run trace (World_init mask)).ctrl_hotplug.usage.length ∧
    lock_ok (run trace (World_init mask)).ctrl_hotplug.force_hstate ∧
    lock_ok (run trace (World_init mask)).ctrl_hotplug.min_lock ∧
    lock_ok (run trace (World_init mask)).ctrl_hotplug.max_lock := by
  have h := run_state_ok trace (World_init mask) (World_init_state_ok mask)
  have hl := run_usage_length trace (World_init mask)
  refine ⟨h.1.2, h.1.1, ?_, h.2.1, h.2.2.1, h.2.2.2⟩
  rw [hl]
  exact h.1.1

/-! ## C14 -/

/-- C14, as stated, fails: in Scenario A the level is already 1 after tick 4, and
tick 5 makes no transition (the level after tick 5 is the level after tick 4). -/
theorem scenario_a_transition_is_on_tick_four :
    (run_ticks (scenario_a_ticks 3) (World_init (List.replicate 8 true))).ctrl_hotplug.old_state
      = 0 ∧
    (run_ticks (scenario_a_ticks 4) (World_init (List.replicate 8 true))).ctrl_hotplug.old_state
      = 1 ∧
    (run_ticks (scenario_a_ticks 5) (World_init (List.replicate 8 true))).ctrl_hotplug.old_state
      = 1 := by
  decide

/-- C14 (amended): in Scenario A (initial state, all eight cores online,
`down_threshold = 3`, `down_tasks = 1`, ticks with CPU load 10 and one runnable
task) no transition happens on ticks 1 to 3, where the down streak is 1, 2, 3; the
first transition is on tick 4, where the streak reaches 4 > 3: it moves the level
from index 0 to index 1 with seven cores online and resets the streak; the level
stays 1 through tick 7, and tick 8 moves to index 2, where the run of ten ticks
ends. -/
theorem scenario_a :
    (∀ n, n ≤ 3 →
      committed (run_ticks (scenario_a_ticks n) (World_init (List.replicate 8 true))) 0 ∧
      (run_ticks (scenario_a_ticks n) (World_init (List.replicate 8 true))).freq_history_DOWN
        = n) ∧
    (select_up_down (scenario_a_env 400)
      (run_ticks (scenario_a_ticks 3) (World_init (List.replicate 8 true)))).2 = action.DOWN ∧
    (select_up_down (scenario_a_env 400)
      (run_ticks (scenario_a_ticks 3) (World_init (List.replicate 8 true)))).1.freq_history_DOWN
        = 4 ∧
    (∀ n, 4 ≤ n → n ≤ 7 →
      committed (run_ticks (scenario_a_ticks n) (World_init (List.replicate 8 true))) 1 ∧
      num_online_cpus (run_ticks (scenario_a_ticks n) (World_init (List.replicate 8 true))) = 7) ∧
    (run_ticks (scenario_a_ticks 4) (World_init (List.replicate 8 true))).freq_history_DOWN = 0 ∧
    (∀ n, 8 ≤ n → n ≤ 10 →
      committed (run_ticks (scenario_a_ticks n) (World_init (List.replicate 8 true))) 2) := by
  refine ⟨?_, by decide, by decide, ?_, by decide, ?_⟩
  · intro n hn
    interval_cases n <;> decide
  · intro n h1 h2
    interval_cases n <;> decide
  · intro n h1 h2
    interval_cases n <;> decide

/-- C14 instance: after two ticks of Scenario A the level is still 0 and the down
streak is 2. -/
theorem scenario_a_witness :
    committed (run_ticks (scenario_a_ticks 2) (World_init (List.replicate 8 true))) 0 ∧
    (run_ticks (scenario_a_ticks 2) (World_init (List.replicate 8 true))).freq_history_DOWN = 2 := by
  have h := scenario_a.1 2 (by decide)
  exact ⟨h.1, by rw [h.2]; rfl⟩

/-! ## Helper lemmas: a tick under low load -/

theorem select_up_down_low_load (e : Env) (w : World)
    (hr : to_uint ((num_online_cpus w : Int) * (w.ctrl_hotplug.down_tasks : Int)) ≥
      to_uint (to_int (e.nr_running : Int)))
    (hb : ¬ e.gpu_get_load ≥ w.ctrl_hotplug.gpu_load_threshold)
    (hl : e.cpu_get_avg_load ≤ CPU_DOWN_LOAD) :
    select_up_down e w =
      (if (0 : Int) > to_int w.ctrl_hotplug.up_threshold then
        ({ w with freq_history_DOWN := atomic_inc w.freq_history_DOWN, freq_history_UP := 0 },
          action.UP)
      else if atomic_inc w.freq_history_DOWN > to_int w.ctrl_hotplug.down_threshold then
        ({ w with freq_history_DOWN := atomic_inc w.freq_history_DOWN, freq_history_UP := 0 },
          action.DOWN)
      else
        ({ w with freq_history_DOWN := atomic_inc w.freq_history_DOWN, freq_history_UP := 0 },
          action.STAY)) := by
  rw [select_up_down]
  simp only [hr, hb, hl, decide_False, Bool.not_false, and_self, if_true]

theorem exynos_work_no_edge (e : Env) (w : World)
    (hs : e.power_suspend_active = false)
    (hrate : w.ctrl_hotplug.sampling_rate ≠ ASLEEP_SAMPLING_RATE) :
    exynos_work e w =
      if get_core_count (select_up_down e w).1.ctrl_hotplug.old_state ≠
          num_online_cpus (select_up_down e w).1 ∨ (select_up_down e w).2 ≠ action.STAY then
        hotplug_enter_hstate e false
          (hotplug_adjust_state (select_up_down e w).2 (select_up_down e w).1.ctrl_hotplug)
          (select_up_down e w).1
      else (select_up_down e w).1 := by
  have hf := (select_up_down_frame e w).1
  unfold exynos_work
  simp only [hf, hs, hrate, Bool.false_eq_true, false_and, and_false, if_false]

theorem enter_hstate_target_unlocked (c : exynos_hotplug_ctrl) (s : Nat)
    (hmin : c.min_lock < 0) (hmax : c.max_lock < 0) :
    enter_hstate_target false false s c = if s > 6 then 6 else s := by
  have h1 : ¬ c.min_lock ≥ 0 := by omega
  have h2 : ¬ c.max_lock ≥ 0 := by omega
  rw [enter_hstate_target_unforced]
  simp [spec_bounds_clamp, lock_value, h1, h2, spec_suspend_clamp]

theorem hotplug_enter_hstate_tunables_frame (e : Env) (force : Bool) (state : Nat) (w : World) :
    (hotplug_enter_hstate e force state w).ctrl_hotplug.up_threshold =
      w.ctrl_hotplug.up_threshold ∧
    (hotplug_enter_hstate e force state w).ctrl_hotplug.down_threshold =
      w.ctrl_hotplug.down_threshold ∧
    (hotplug_enter_hstate e force state w).ctrl_hotplug.up_tasks = w.ctrl_hotplug.up_tasks ∧
    (hotplug_enter_hstate e force state w).ctrl_hotplug.down_tasks = w.ctrl_hotplug.down_tasks ∧
    (hotplug_enter_hstate e force state w).ctrl_hotplug.gpu_load_threshold =
      w.ctrl_hotplug.gpu_load_threshold := by
  by_cases h : enter_hstate_target e.power_suspend_active force state w.ctrl_hotplug =
      w.ctrl_hotplug.old_state
  · rw [hotplug_enter_hstate_same_level_frame e force state w h]
    exact ⟨rfl, rfl, rfl, rfl, rfl⟩
  · rw [(hotplug_enter_hstate_transition e force state w h).2.2]
    exact ⟨rfl, rfl, rfl, rfl, rfl⟩
theorem with_down_streak_ctrl (w : World) (d u : Int) :
    ({ w with freq_history_DOWN := d, freq_history_UP := u }).ctrl_hotplug = w.ctrl_hotplug := rfl

theorem select_up_down_shedding (e : Env) (w : World) (hs : shedding_tick e w)
    (ha : awake_unlocked w) (hd0 : 0 ≤ w.freq_history_DOWN) (hd1 : w.freq_history_DOWN < INT_MAX) :
    select_up_down e w =
      ({ w with freq_history_DOWN := w.freq_history_DOWN + 1, freq_history_UP := 0 },
        if (w.ctrl_hotplug.down_threshold : Int) ≤ w.freq_history_DOWN then action.DOWN
        else action.STAY) := by
  obtain ⟨_, hl, hb, hp, hn, hr⟩ := hs
  obtain ⟨_, _, _, htu, htd, _, _⟩ := ha
  have hA : to_uint ((num_online_cpus w : Int) * (w.ctrl_hotplug.down_tasks : Int)) =
      num_online_cpus w * w.ctrl_hotplug.down_tasks := by
    rw [← Nat.cast_mul]; exact to_uint_of_nat _ hp
  have hC : to_uint (to_int (e.nr_running : Int)) = e.nr_running := by
    rw [to_uint_to_int]; omega
  have hsel := select_up_down_low_load e w (by rw [hA, hC]; exact hr) (by omega) hl
  have hD : to_int (w.ctrl_hotplug.up_threshold : Int) = w.ctrl_hotplug.up_threshold :=
    to_int_of_range _ (by omega) (by omega)
  have hE : to_int (w.ctrl_hotplug.down_threshold : Int) = w.ctrl_hotplug.down_threshold :=
    to_int_of_range _ (by omega) (by omega)
  have hinc : atomic_inc w.freq_history_DOWN = w.freq_history_DOWN + 1 := by
    unfold atomic_inc to_int
    unfold INT_MAX at hd1
    omega
  rw [hD, hE, hinc] at hsel
  clear hA hC hD hE hinc hp hn hr htu htd hd1
  rw [hsel]
  have h0 : ¬ ((0 : Int) > (w.ctrl_hotplug.up_threshold : Int)) := by omega
  rw [if_neg h0]
  by_cases h : (w.ctrl_hotplug.down_threshold : Int) ≤ w.freq_history_DOWN
  · rw [if_pos h, if_pos (by omega)]
  · rw [if_neg h, if_neg (by omega)]

theorem exynos_work_shedding (e : Env) (w : World) (hs : shedding_tick e w)
    (ha : awake_unlocked w) (hd0 : 0 ≤ w.freq_history_DOWN) (hd1 : w.freq_history_DOWN < INT_MAX) :
    ((w.ctrl_hotplug.down_threshold : Int) ≤ w.freq_history_DOWN ∧ w.ctrl_hotplug.old_state < 6 →
      exynos_work e w = hotplug_enter_hstate e false (w.ctrl_hotplug.old_state + 1)
        { w with freq_history_DOWN := w.freq_history_DOWN + 1, freq_history_UP := 0 } ∧
      enter_hstate_target e.power_suspend_active false (w.ctrl_hotplug.old_state + 1)
        w.ctrl_hotplug = w.ctrl_hotplug.old_state + 1) ∧
    (¬ ((w.ctrl_hotplug.down_threshold : Int) ≤ w.freq_history_DOWN ∧
        w.ctrl_hotplug.old_state < 6) →
      exynos_work e w =
        { w with freq_history_DOWN := w.freq_history_DOWN + 1, freq_history_UP := 0 }) := by
  have hsel := select_up_down_shedding e w hs ha hd0 hd1
  have hsusp := hs.1
  obtain ⟨hrate, hmin, hmax, _, _, hlev, _⟩ := ha
  have hwork := exynos_work_no_edge e w hsusp hrate
  rw [hsel] at hwork
  simp only [with_down_streak_ctrl] at hwork
  have htgt : ∀ s, enter_hstate_target e.power_suspend_active false s w.ctrl_hotplug =
      if s > 6 then 6 else s := by
    intro s
    rw [hsusp]
    exact enter_hstate_target_unlocked _ s hmin hmax
  clear hsel hd0 hd1 hs
  constructor
  · intro ⟨hthr, hlt⟩
    rw [if_pos hthr] at hwork
    have hadj : hotplug_adjust_state action.DOWN w.ctrl_hotplug = w.ctrl_hotplug.old_state + 1 := by
      simp only [hotplug_adjust_state, MAX_HSTATE]
      simp
      split_ifs <;> omega
    rw [hadj] at hwork
    rw [if_pos (Or.inr (by decide))] at hwork
    refine ⟨hwork, ?_⟩
    rw [htgt]
    split_ifs <;> omega
  · intro hnot
    by_cases hthr : (w.ctrl_hotplug.down_threshold : Int) ≤ w.freq_history_DOWN
    · have hlev6 : w.ctrl_hotplug.old_state = 6 := by
        have : ¬ w.ctrl_hotplug.old_state < 6 := fun h => hnot ⟨hthr, h⟩
        omega
      rw [if_pos hthr] at hwork
      have hadj : hotplug_adjust_state action.DOWN w.ctrl_hotplug = 7 := by
        simp only [hotplug_adjust_state, MAX_HSTATE, hlev6]
        simp
      rw [hadj, if_pos (Or.inr (by decide))] at hwork
      rw [hwork]
      apply hotplug_enter_hstate_same_level_frame
      rw [with_down_streak_ctrl, htgt, hlev6]
      rfl
    · rw [if_neg hthr] at hwork
      have hadj : hotplug_adjust_state action.STAY w.ctrl_hotplug = w.ctrl_hotplug.old_state := by
        simp [hotplug_adjust_state]
      rw [hadj] at hwork
      rw [hwork]
      split_ifs
      · apply hotplug_enter_hstate_same_level_frame
        rw [with_down_streak_ctrl, htgt]
        split_ifs <;> omega
      · rfl
theorem tick_facts (e : Env) (w : World) (hs : shedding_tick e w)
    (ha : awake_unlocked w) (hd0 : 0 ≤ w.freq_history_DOWN) (hd1 : w.freq_history_DOWN < INT_MAX) :
    awake_unlocked (exynos_work e w) ∧
    (exynos_work e w).ctrl_hotplug.down_threshold = w.ctrl_hotplug.down_threshold ∧
    ((w.ctrl_hotplug.down_threshold : Int) ≤ w.freq_history_DOWN ∧ w.ctrl_hotplug.old_state < 6 →
      (exynos_work e w).ctrl_hotplug.old_state = w.ctrl_hotplug.old_state + 1 ∧
      (exynos_work e w).freq_history_DOWN = 0 ∧ (exynos_work e w).freq_history_UP = 0) ∧
    (¬ ((w.ctrl_hotplug.down_threshold : Int) ≤ w.freq_history_DOWN ∧
        w.ctrl_hotplug.old_state < 6) →
      (exynos_work e w).ctrl_hotplug = w.ctrl_hotplug ∧
      (exynos_work e w).cpu_online_mask = w.cpu_online_mask ∧
      (exynos_work e w).freq_history_DOWN = w.freq_history_DOWN + 1 ∧
      (exynos_work e w).freq_history_UP = 0) := by
  have hw := exynos_work_shedding e w hs ha hd0 hd1
  by_cases hc : (w.ctrl_hotplug.down_threshold : Int) ≤ w.freq_history_DOWN ∧
      w.ctrl_hotplug.old_state < 6
  · obtain ⟨heq, htgt⟩ := hw.1 hc
    have hne : enter_hstate_target e.power_suspend_active false (w.ctrl_hotplug.old_state + 1)
        ({ w with freq_history_DOWN := w.freq_history_DOWN + 1,
                  freq_history_UP := 0 } : World).ctrl_hotplug ≠
        ({ w with freq_history_DOWN := w.freq_history_DOWN + 1,
                  freq_history_UP := 0 } : World).ctrl_hotplug.old_state := by
      rw [with_down_streak_ctrl, htgt]
      omega
    have htr := hotplug_enter_hstate_transition e false (w.ctrl_hotplug.old_state + 1) _ hne
    have hfr := hotplug_enter_hstate_ctrl_frame e false (w.ctrl_hotplug.old_state + 1)
      { w with freq_history_DOWN := w.freq_history_DOWN + 1, freq_history_UP := 0 }
    have htu := hotplug_enter_hstate_tunables_frame e false (w.ctrl_hotplug.old_state + 1)
      { w with freq_history_DOWN := w.freq_history_DOWN + 1, freq_history_UP := 0 }
    have hcm := hotplug_enter_hstate_committed e false (w.ctrl_hotplug.old_state + 1)
      { w with freq_history_DOWN := w.freq_history_DOWN + 1, freq_history_UP := 0 } ha.2.2.2.2.2.2
    rw [with_down_streak_ctrl] at hfr htu hcm
    rw [htgt] at hcm
    rw [← heq] at htr hfr htu hcm
    refine ⟨?_, htu.2.1, fun _ => ⟨hcm.1, htr.2.1, htr.1⟩, fun h => absurd hc h⟩
    unfold awake_unlocked
    rw [hfr.1, hfr.2.1, hfr.2.2.1, htu.1, htu.2.1, hcm.1, hcm.2]
    exact ⟨ha.1, ha.2.1, ha.2.2.1, ha.2.2.2.1, ha.2.2.2.2.1, by omega, rfl⟩
  · have heq := hw.2 hc
    rw [heq]
    exact ⟨ha, rfl, fun h => absurd h hc, fun _ => ⟨rfl, rfl, rfl, rfl⟩⟩

theorem run_ticks_take_succ (es : List Env) (w : World) (n : Nat) (h : n < es.length) :
    run_ticks (es.take (n + 1)) w = exynos_work (es.get ⟨n, h⟩) (run_ticks (es.take n) w) := by
  induction es generalizing w n with
  | nil => simp at h
  | cons e es ih =>
    cases n with
    | zero => simp [run_ticks]
    | succ n =>
      simp only [List.take_succ_cons, run_ticks, List.get_cons_succ]
      exact ih (exynos_work e w) n (by simpa using h)

theorem shedding_at (es : List Env) (w : World) (hs : shedding es w) (n : Nat)
    (h : n < es.length) : shedding_tick (es.get ⟨n, h⟩) (run_ticks (es.take n) w) := by
  induction es generalizing w n with
  | nil => simp at h
  | cons e es ih =>
    cases n with
    | zero => exact hs.1
    | succ n =>
      simp only [List.take_succ_cons, run_ticks, List.get_cons_succ]
      exact ih (exynos_work e w) hs.2 n (by simpa using h)

theorem after_ticks_inv (es : List Env) (w : World) (ha : awake_unlocked w)
    (hs : shedding es w) (hd0 : 0 ≤ w.freq_history_DOWN)
    (hd1 : w.freq_history_DOWN + es.length < INT_MAX) (n : Nat) (hn : n ≤ es.length) :
    awake_unlocked (after_ticks es w n) ∧
    0 ≤ (after_ticks es w n).freq_history_DOWN ∧
    (after_ticks es w n).freq_history_DOWN ≤ w.freq_history_DOWN + n ∧
    (after_ticks es w n).ctrl_hotplug.down_threshold = w.ctrl_hotplug.down_threshold := by
  induction n with
  | zero =>
    have h0 : after_ticks es w 0 = w := by simp [after_ticks, run_ticks]
    rw [h0]
    exact ⟨ha, hd0, by simp, rfl⟩
  | succ n ih =>
    obtain ⟨iha, ih0, ih1, iht⟩ := ih (by omega)
    have hlt : n < es.length := by omega
    have hst := shedding_at es w hs n hlt
    have hstep : after_ticks es w (n + 1) =
        exynos_work (es.get ⟨n, hlt⟩) (after_ticks es w n) :=
      run_ticks_take_succ es w n hlt
    have hb : (after_ticks es w n).freq_history_DOWN < INT_MAX := by
      have : ((n : Int)) < es.length := by exact_mod_cast hlt
      omega
    have hf := tick_facts (es.get ⟨n, hlt⟩) (after_ticks es w n) hst iha ih0 hb
    rw [← hstep] at hf
    refine ⟨hf.1, ?_, ?_, by rw [hf.2.1, iht]⟩
    · by_cases hc : ((after_ticks es w n).ctrl_hotplug.down_threshold : Int) ≤
          (after_ticks es w n).freq_history_DOWN ∧ (after_ticks es w n).ctrl_hotplug.old_state < 6
      · rw [(hf.2.2.1 hc).2.1]
      · rw [(hf.2.2.2 hc).2.2.1]; omega
    · by_cases hc : ((after_ticks es w n).ctrl_hotplug.down_threshold : Int) ≤
          (after_ticks es w n).freq_history_DOWN ∧ (after_ticks es w n).ctrl_hotplug.old_state < 6
      · rw [(hf.2.2.1 hc).2.1]; push_cast; omega
      · rw [(hf.2.2.2 hc).2.2.1]; push_cast; omega
theorem shedding_step_facts (es : List Env) (w : World) (ha : awake_unlocked w)
    (hs : shedding es w) (hd0 : 0 ≤ w.freq_history_DOWN)
    (hd1 : w.freq_history_DOWN + es.length < INT_MAX) (n : Nat) (hn : n < es.length) :
    (level_after es w (n + 1) = level_after es w n ∨
      level_after es w (n + 1) = level_after es w n + 1) ∧
    level_after es w (n + 1) ≤ 6 ∧
    (level_after es w (n + 1) ≠ level_after es w n →
      (w.ctrl_hotplug.down_threshold : Int) ≤ down_streak_after es w n ∧
      down_streak_after es w (n + 1) = 0) ∧
    (level_after es w (n + 1) = level_after es w n →
      down_streak_after es w (n + 1) = down_streak_after es w n + 1) ∧
    0 ≤ down_streak_after es w n := by
  obtain ⟨iha, ih0, ih1, iht⟩ := after_ticks_inv es w ha hs hd0 hd1 n (by omega)
  have hnext := after_ticks_inv es w ha hs hd0 hd1 (n + 1) (by omega)
  have hst := shedding_at es w hs n hn
  have hstep : after_ticks es w (n + 1) =
      exynos_work (es.get ⟨n, hn⟩) (after_ticks es w n) :=
    run_ticks_take_succ es w n hn
  have hb : (after_ticks es w n).freq_history_DOWN < INT_MAX := by
    have : ((n : Int)) < es.length := by exact_mod_cast hn
    omega
  have hf := tick_facts (es.get ⟨n, hn⟩) (after_ticks es w n) hst iha ih0 hb
  rw [← hstep] at hf
  have h6 := hnext.1.2.2.2.2.2.1
  unfold level_after down_streak_after
  clear hb hd1 hnext
  by_cases hc : ((after_ticks es w n).ctrl_hotplug.down_threshold : Int) ≤
      (after_ticks es w n).freq_history_DOWN ∧ (after_ticks es w n).ctrl_hotplug.old_state < 6
  · obtain ⟨h1, h2, _⟩ := hf.2.2.1 hc
    refine ⟨Or.inr h1, h6, fun _ => ⟨by rw [← iht]; exact hc.1, h2⟩, fun h => ?_, ih0⟩
    omega
  · obtain ⟨h1, _, h2, _⟩ := hf.2.2.2 hc
    refine ⟨Or.inl (by rw [h1]), h6, fun h => ?_, fun _ => h2, ih0⟩
    exact absurd (by rw [h1]) h

theorem streak_after_transition (es : List Env) (w : World) (ha : awake_unlocked w)
    (hs : shedding es w) (hd0 : 0 ≤ w.freq_history_DOWN)
    (hd1 : w.freq_history_DOWN + es.length < INT_MAX) (n : Nat) (hn : n < es.length)
    (hch : level_after es w (n + 1) ≠ level_after es w n) (j : Nat)
    (hj : n + 1 + j ≤ es.length) :
    down_streak_after es w (n + 1 + j) ≤ j := by
  induction j with
  | zero =>
    have h := (shedding_step_facts es w ha hs hd0 hd1 n hn).2.2.1 hch
    simp only [Nat.add_zero]
    rw [h.2]
    simp
  | succ j ih =>
    have hprev := ih (by omega)
    have hf := shedding_step_facts es w ha hs hd0 hd1 (n + 1 + j) (by omega)
    have hidx : n + 1 + (j + 1) = n + 1 + j + 1 := by omega
    rw [hidx]
    by_cases hc : level_after es w (n + 1 + j + 1) = level_after es w (n + 1 + j)
    · rw [hf.2.2.2.1 hc]
      push_cast
      omega
    · rw [(hf.2.2.1 hc).2]
      push_cast
      omega

/-! ## C15 -/

/-- C15, as stated, fails: from the initial state, write 5 to `max_lock`, let the
device suspend and wake (the wake edge forces level 0); then under constant low
load the fourth tick raises the level index from 0 to 5 in one transition. -/
theorem shedding_with_max_lock_jumps :
    level_after (scenario_a_ticks 4)
      (run [(scenario_a_env 0, op.write_max_lock (some 5) 2),
            (sample_env true 0 0 1 10 0, op.tick),
            (scenario_a_env 0, op.tick)] (World_init (List.replicate 8 true))) 0 = 0 ∧
    level_after (scenario_a_ticks 4)
      (run [(scenario_a_env 0, op.write_max_lock (some 5) 2),
            (sample_env true 0 0 1 10 0, op.tick),
            (scenario_a_env 0, op.tick)] (World_init (List.replicate 8 true))) 3 = 0 ∧
    level_after (scenario_a_ticks 4)
      (run [(scenario_a_env 0, op.write_max_lock (some 5) 2),
            (sample_env true 0 0 1 10 0, op.tick),
            (scenario_a_env 0, op.tick)] (World_init (List.replicate 8 true))) 4 = 5 := by
  decide

/-- C15 (amended): start from any awake state without locks (level at most 6,
thresholds below 2^31, down streak non-negative and far from `INT_MAX`) and apply
any sequence of ticks each of which has suspend inactive, CPU load at or below the
low watermark, no boost and the down task-ratio condition. Then every tick either
keeps the level or raises its index by exactly 1, never beyond the screen-on
ceiling 6; a transition happens only on a tick that finds the down streak at least
`down_threshold` and it resets the streak, every other tick adds one to the
streak; so after a transition on tick `n + 1` the next transition is on tick
`n + down_threshold + 2` at the earliest. -/
theorem gradual_shedding (es : List Env) (w : World) (ha : awake_unlocked w)
    (hs : shedding es w) (hd0 : 0 ≤ w.freq_history_DOWN)
    (hd1 : w.freq_history_DOWN + es.length < INT_MAX) :
    ∀ n, n < es.length →
      (level_after es w (n + 1) = level_after es w n ∨
        level_after es w (n + 1) = level_after es w n + 1) ∧
      level_after es w (n + 1) ≤ 6 ∧
      (level_after es w (n + 1) ≠ level_after es w n →
        (w.ctrl_hotplug.down_threshold : Int) ≤ down_streak_after es w n ∧
        down_streak_after es w (n + 1) = 0) ∧
      (level_after es w (n + 1) = level_after es w n →
        down_streak_after es w (n + 1) = down_streak_after es w n + 1) ∧
      (∀ m, n < m → m < es.length →
        level_after es w (n + 1) ≠ level_after es w n →
        level_after es w (m + 1) ≠ level_after es w m →
        n + w.ctrl_hotplug.down_threshold + 1 ≤ m) := by
  intro n hn
  have hf := shedding_step_facts es w ha hs hd0 hd1 n hn
  refine ⟨hf.1, hf.2.1, hf.2.2.1, hf.2.2.2.1, ?_⟩
  intro m hnm hm hchn hchm
  have hfm := shedding_step_facts es w ha hs hd0 hd1 m hm
  have hthr := (hfm.2.2.1 hchm).1
  have hle := streak_after_transition es w ha hs hd0 hd1 n hn hchn (m - (n + 1)) (by omega)
  have hidx : n + 1 + (m - (n + 1)) = m := by omega
  rw [hidx] at hle
  have hcast : ((m - (n + 1) : Nat) : Int) = (m : Int) - (n : Int) - 1 := by omega
  rw [hcast] at hle
  clear hd1 hf hfm
  omega

/-- C15 instance: in the ten ticks of Scenario A from the initial state, tick 4
raises the level from 0 to 1 and the next transition is not before tick 8. -/
theorem gradual_shedding_witness :
    (level_after (scenario_a_ticks 10) (World_init (List.replicate 8 true)) 4 =
        level_after (scenario_a_ticks 10) (World_init (List.replicate 8 true)) 3 ∨
      level_after (scenario_a_ticks 10) (World_init (List.replicate 8 true)) 4 =
        level_after (scenario_a_ticks 10) (World_init (List.replicate 8 true)) 3 + 1) ∧
    level_after (scenario_a_ticks 10) (World_init (List.replicate 8 true)) 4 = 1 :=
  ⟨(gradual_shedding (scenario_a_ticks 10) (World_init (List.replicate 8 true))
      (by decide) (by decide) (by decide) (by decide) 3 (by decide)).1, by decide⟩

/-! ## Helper lemmas: the range of the streak counters -/

theorem atomic_inc_range (v : Int) : -2147483648 ≤ atomic_inc v ∧ atomic_inc v ≤ INT_MAX := by
  unfold atomic_inc to_int INT_MAX
  omega

theorem streak_ok_with_ctrl (w : World) (c : exynos_hotplug_ctrl) (h : streak_ok w) :
    streak_ok { w with ctrl_hotplug := c } := h

theorem streak_ok_zero (w : World) (h1 : w.freq_history_UP = 0) (h2 : w.freq_history_DOWN = 0) :
    streak_ok w := by
  unfold streak_ok INT_MAX
  rw [h1, h2]
  omega

theorem select_up_down_streak_ok (e : Env) (w : World) (h : streak_ok w) :
    streak_ok (select_up_down e w).1 := by
  have hu := atomic_inc_range w.freq_history_UP
  have hd := atomic_inc_range w.freq_history_DOWN
  have hz : (-2147483648 : Int) ≤ 0 ∧ (0 : Int) ≤ INT_MAX := by
    unfold INT_MAX; omega
  rw [select_up_down, decision_fst]
  split_ifs
  · exact ⟨hz.1, hz.2, hd.1, hd.2⟩
  · exact ⟨hz.1, hz.2, hz.1, hz.2⟩
  · exact ⟨hu.1, hu.2, hz.1, hz.2⟩
  · exact h

theorem hotplug_enter_hstate_streak_ok (e : Env) (force : Bool) (state : Nat) (w : World)
    (h : streak_ok w) : streak_ok (hotplug_enter_hstate e force state w) := by
  by_cases hc : enter_hstate_target e.power_suspend_active force state w.ctrl_hotplug =
      w.ctrl_hotplug.old_state
  · rw [hotplug_enter_hstate_same_level_frame e force state w hc]
    exact h
  · have ht := hotplug_enter_hstate_transition e force state w hc
    exact streak_ok_zero _ ht.1 ht.2.1

theorem exynos_work_streak_ok (e : Env) (w : World) (h : streak_ok w) :
    streak_ok (exynos_work e w) := by
  have h1 := select_up_down_streak_ok e w h
  unfold exynos_work
  simp only
  split_ifs
  · exact streak_ok_with_ctrl _ _ (hotplug_enter_hstate_streak_ok e false _ _ h1)
  · exact streak_ok_with_ctrl _ _ (hotplug_enter_hstate_streak_ok e true _ _ h1)
  · exact hotplug_enter_hstate_streak_ok e false _ _ h1
  · exact h1

theorem force_hstate_streak_ok (e : Env) (v : Int) (f : lock_field) (w : World)
    (h : streak_ok w) : streak_ok (__force_hstate e v f w) := by
  rw [__force_hstate]
  split_ifs
  · exact streak_ok_with_ctrl _ _ h
  · exact streak_ok_with_ctrl _ _ (hotplug_enter_hstate_streak_ok e true _ _ h)

theorem store_force_hstate_streak_ok (e : Env) (buf : Option Int) (count : Nat) (w : World)
    (h : streak_ok w) : streak_ok (store_force_hstate e buf count w).1 := by
  cases buf with
  | none => exact h
  | some v =>
    rw [store_force_hstate]
    split_ifs
    · exact h
    · rw [__set_force_hstate]
      split_ifs
      · exact streak_ok_with_ctrl _ _ h
      · exact streak_ok_with_ctrl _ _ (hotplug_enter_hstate_streak_ok e true _ _ h)

theorem store_max_lock_streak_ok (e : Env) (buf : Option Int) (count : Nat) (w : World)
    (h : streak_ok w) : streak_ok (store_max_lock e buf count w).1 := by
  cases buf with
  | none => exact h
  | some v =>
    by_cases hv : v ≥ (MAX_HSTATE : Int)
    · rw [store_max_lock]; simp only [hv, if_true]; exact h
    · by_cases hforce : w.ctrl_hotplug.force_hstate ≠ -1
      · rw [store_max_lock]
        simp only [hv, hforce, if_false, ne_eq, not_false_eq_true, if_true]
        exact h
      · have hforce2 : w.ctrl_hotplug.force_hstate = -1 := by
          by_contra hc; exact hforce hc
        by_cases hneg : v < 0
        · rw [store_max_lock]
          simp only [hv, hforce, hneg, if_false, if_true]
          exact force_hstate_streak_ok e v _ w h
        · rw [store_max_lock_accepted e v count w hforce2 (by omega) (by omega)]
          split_ifs
          · exact streak_ok_with_ctrl _ _ h
          · exact force_hstate_streak_ok e _ _ w h

theorem store_min_lock_streak_ok (e : Env) (buf : Option Int) (count : Nat) (w : World)
    (h : streak_ok w) : streak_ok (store_min_lock e buf count w).1 := by
  cases buf with
  | none => exact h
  | some v =>
    by_cases hv : v ≥ (MAX_HSTATE : Int)
    · rw [store_min_lock]; simp only [hv, if_true]; exact h
    · by_cases hforce : w.ctrl_hotplug.force_hstate ≠ -1
      · rw [store_min_lock]
        simp only [hv, hforce, if_false, ne_eq, not_false_eq_true, if_true]
        exact h
      · have hforce2 : w.ctrl_hotplug.force_hstate = -1 := by
          by_contra hc; exact hforce hc
        by_cases hneg : v < 0
        · rw [store_min_lock]
          simp only [hv, hforce, hneg, if_false, if_true]
          exact force_hstate_streak_ok e v _ w h
        · rw [store_min_lock_accepted e v count w hforce2 (by omega) (by omega)]
          split_ifs
          · exact streak_ok_with_ctrl _ _ h
          · exact force_hstate_streak_ok e _ _ w h

theorem step_streak_ok (e : Env) (o : op) (w : World) (h : streak_ok w) :
    streak_ok (step e o w) := by
  cases o with
  | tick => exact exynos_work_streak_ok e w h
  | write_force_hstate buf count => exact store_force_hstate_streak_ok e buf count w h
  | write_min_lock buf count => exact store_min_lock_streak_ok e buf count w h
  | write_max_lock buf count => exact store_max_lock_streak_ok e buf count w h
  | write_tunable t buf count =>
    cases buf with
    | error ret => exact h
    | ok value => exact streak_ok_with_ctrl _ _ h
  | read_time_in_state => exact streak_ok_with_ctrl _ _ h

theorem run_streak_ok (trace : List (Env × op)) (w : World) (h : streak_ok w) :
    streak_ok (run trace w) := by
  induction trace generalizing w with
  | nil => exact h
  | cons a rest ih => exact ih _ (step_streak_ok a.1 a.2 w h)

theorem World_init_streak_ok (mask : List Bool) : streak_ok (World_init mask) :=
  streak_ok_zero _ rfl rfl

/-! ## C18 -/

set_option maxRecDepth 8000 in
/-- C18, as stated, fails: in Scenario A continued to 40 ticks the level reaches
the screen-on ceiling 6 on tick 24; from tick 28 on the decider returns DOWN on
every tick, the clamped target equals the current level 6, and the down streak
keeps growing by one per tick: it is 4 after tick 28 and 16 after tick 40. -/
theorem down_streak_grows_at_ceiling :
    level_after (scenario_a_ticks 40) (World_init (List.replicate 8 true)) 28 = 6 ∧
    level_after (scenario_a_ticks 40) (World_init (List.replicate 8 true)) 40 = 6 ∧
    down_streak_after (scenario_a_ticks 40) (World_init (List.replicate 8 true)) 28 = 4 ∧
    down_streak_after (scenario_a_ticks 40) (World_init (List.replicate 8 true)) 40 = 16 ∧
    (select_up_down (scenario_a_env 4000)
      (after_ticks (scenario_a_ticks 40) (World_init (List.replicate 8 true)) 39)).2
        = action.DOWN ∧
    enter_hstate_target false false
      (hotplug_adjust_state action.DOWN
        (after_ticks (scenario_a_ticks 40) (World_init (List.replicate 8 true)) 39).ctrl_hotplug)
      (after_ticks (scenario_a_ticks 40) (World_init (List.replicate 8 true)) 39).ctrl_hotplug
        = 6 := by
  decide

/-- C18 (amended): the only bound on the streak counters is the range of the
32-bit `atomic_t`: in every state reached from the initial state by ticks and
control-surface operations both streaks lie in `-2^31 .. INT_MAX`. Nothing clamps
them below that: at the screen-on ceiling every low-load tick leaves the level
unchanged and adds one to the down streak as long as it is below `INT_MAX`, and
the increment at `INT_MAX` wraps to `-2^31`. -/
theorem streaks_bounded_only_by_wrap :
    (∀ (mask : List Bool) (trace : List (Env × op)),
      streak_ok (run trace (World_init mask))) ∧
    (∀ (e : Env) (w : World), shedding_tick e w → awake_unlocked w →
      w.ctrl_hotplug.old_state = 6 → 0 ≤ w.freq_history_DOWN → w.freq_history_DOWN < INT_MAX →
      (exynos_work e w).ctrl_hotplug = w.ctrl_hotplug ∧
      (exynos_work e w).freq_history_DOWN = w.freq_history_DOWN + 1) ∧
    atomic_inc INT_MAX = -2147483648 := by
  refine ⟨fun mask trace => run_streak_ok trace _ (World_init_streak_ok mask), ?_, by decide⟩
  intro e w hs ha h6 hd0 hd1
  have hf := (tick_facts e w hs ha hd0 hd1).2.2.2 (fun hc => by omega)
  exact ⟨hf.1, hf.2.2.1⟩

/-- C18 instance: at level 6 with down streak 1000, a low-load tick keeps level 6
and makes the streak 1001. -/
theorem streaks_bounded_only_by_wrap_witness :
    (exynos_work (scenario_a_env 100) (with_streaks (world_at 6) 0 1000)).ctrl_hotplug.old_state
      = 6 ∧
    (exynos_work (scenario_a_env 100) (with_streaks (world_at 6) 0 1000)).freq_history_DOWN
      = 1001 := by
  have h := streaks_bounded_only_by_wrap.2.1 (scenario_a_env 100)
    (with_streaks (world_at 6) 0 1000) (by decide) (by decide) (by decide) (by decide)
    (by decide)
  exact ⟨by rw [h.1]; rfl, by rw [h.2]; rfl⟩

/-! ## Helper lemmas: time accounting -/

theorem time_status_diff_facts (t last : Int) (h : last ≤ t) :
    0 ≤ time_status_diff t last ∧ time_status_diff t last ≤ INT_MAX ∧
    time_status_diff t last * 1000000 ≤ t - last ∧
    (time_status_diff t last < INT_MAX → t - last < (time_status_diff t last + 1) * 1000000) := by
  have hd : ktime_to_ms (t - last) = (t - last) / 1000000 := by
    unfold ktime_to_ms
    exact Int.tdiv_eq_ediv (by omega) (by omega)
  unfold time_status_diff
  rw [hd]
  unfold INT_MAX
  split_ifs <;> omega

theorem sum_set_add (u : List Nat) (j v : Nat) (h : j < u.length) :
    (u.set j v).sum + u.getD j 0 = u.sum + v := by
  induction u generalizing j with
  | nil => simp at h
  | cons a u ih =>
    cases j with
    | zero => simp; omega
    | succ j =>
      have := ih j (by simpa using h)
      simp at this ⊢
      omega

theorem getD_le_sum (u : List Nat) (j : Nat) : u.getD j 0 ≤ u.sum := by
  induction u generalizing j with
  | nil => simp
  | cons a u ih =>
    cases j with
    | zero => simp
    | succ j =>
      have := ih j
      simp at this ⊢
      omega

theorem to_ulong_of_range (x : Int) (h0 : 0 ≤ x) (h1 : x < 18446744073709551616) :
    to_ulong x = x.toNat := by
  unfold to_ulong
  omega

theorem usage_add_sum (u : List Nat) (j : Nat) (d : Int) (hj : j < u.length) (hd : 0 ≤ d)
    (hr : (u.getD j 0 : Int) + d < 18446744073709551616) :
    ((usage_add u j d).sum : Int) = (u.sum : Int) + d ∧
    (usage_add u j d).getD j 0 = u.getD j 0 + d.toNat := by
  have hv : to_ulong ((u.getD j 0 : Nat) + d) = u.getD j 0 + d.toNat := by
    rw [to_ulong_of_range _ (by omega) hr]
    omega
  constructor
  · have hs := sum_set_add u j (to_ulong ((u.getD j 0 : Nat) + d)) hj
    unfold usage_add
    rw [hv] at hs ⊢
    omega
  · rw [usage_add_eq u j d hj, hv]
theorem flush_ledger (t : Int) (c : exynos_hotplug_ctrl)
    (hlen : c.usage.length = MAX_HSTATE) (hold : c.old_state < MAX_HSTATE)
    (ht : c.last_time ≤ t) (ht2 : t < 9223372036854775808)
    (hsum : (c.usage.sum : Int) * 1000000 ≤ c.last_time) :
    (hotplug_update_time_status t c).1.usage.length = MAX_HSTATE ∧
    (hotplug_update_time_status t c).1.old_state = c.old_state ∧
    (hotplug_update_time_status t c).1.last_time = t ∧
    ((hotplug_update_time_status t c).1.usage.sum : Int) * 1000000 ≤ t ∧
    (∀ i, c.usage.getD i 0 ≤ (hotplug_update_time_status t c).1.usage.getD i 0) ∧
    (hotplug_update_time_status t c).1.usage.getD c.old_state 0 =
      c.usage.getD c.old_state 0 + (time_status_diff t c.last_time).toNat ∧
    (∀ i, i ≠ c.old_state →
      (hotplug_update_time_status t c).1.usage.getD i 0 = c.usage.getD i 0) := by
  have hj : c.old_state < c.usage.length := by rw [hlen]; exact hold
  obtain ⟨hd0, hd1, hd2, _⟩ := time_status_diff_facts t c.last_time ht
  have hle := getD_le_sum c.usage c.old_state
  have hr : (c.usage.getD c.old_state 0 : Int) + time_status_diff t c.last_time <
      18446744073709551616 := by
    unfold INT_MAX at hd1
    omega
  obtain ⟨hs, he⟩ := usage_add_sum c.usage c.old_state _ hj hd0 hr
  rw [hotplug_update_time_status_eq]
  refine ⟨by simp only [usage_add_length]; exact hlen, rfl, rfl, ?_, ?_, he, ?_⟩
  · show ((usage_add c.usage c.old_state (time_status_diff t c.last_time)).sum : Int) * 1000000 ≤ t
    rw [hs]
    omega
  · intro i
    show c.usage.getD i 0 ≤ (usage_add c.usage c.old_state (time_status_diff t c.last_time)).getD i 0
    by_cases hi : i = c.old_state
    · rw [hi, he]; omega
    · rw [usage_add_ne _ _ _ _ hi]
  · intro i hi
    exact usage_add_ne _ _ _ _ hi

theorem hotplug_enter_hstate_ledger (e : Env) (force : Bool) (state : Nat) (w : World)
    (hlen : w.ctrl_hotplug.usage.length = MAX_HSTATE)
    (hold : w.ctrl_hotplug.old_state < MAX_HSTATE)
    (hc : clock_ok e w)
    (h0 : 0 ≤ w.ctrl_hotplug.last_time)
    (hsum : (w.ctrl_hotplug.usage.sum : Int) * 1000000 ≤ w.ctrl_hotplug.last_time) :
    0 ≤ (hotplug_enter_hstate e force state w).ctrl_hotplug.last_time ∧
    (hotplug_enter_hstate e force state w).ctrl_hotplug.last_time < 9223372036854775808 ∧
    ((hotplug_enter_hstate e force state w).ctrl_hotplug.usage.sum : Int) * 1000000 ≤
      (hotplug_enter_hstate e force state w).ctrl_hotplug.last_time ∧
    (∀ i, w.ctrl_hotplug.usage.getD i 0 ≤
      (hotplug_enter_hstate e force state w).ctrl_hotplug.usage.getD i 0) := by
  obtain ⟨hc1, hc2, hc3⟩ := hc
  by_cases h : enter_hstate_target e.power_suspend_active force state w.ctrl_hotplug =
      w.ctrl_hotplug.old_state
  · rw [hotplug_enter_hstate_same_level_frame e force state w h]
    exact ⟨h0, by omega, hsum, fun i => Nat.le_refl _⟩
  · rw [(hotplug_enter_hstate_transition e force state w h).2.2]
    have f1 := flush_ledger e.ktime_get_1 w.ctrl_hotplug hlen hold hc1 (by omega) hsum
    have f2 := flush_ledger e.ktime_get_2
      (hotplug_update_time_status e.ktime_get_1 w.ctrl_hotplug).1 f1.1
      (by rw [f1.2.1]; exact hold) (by rw [f1.2.2.1]; exact hc2) hc3
      (by rw [f1.2.2.1]; exact f1.2.2.2.1)
    dsimp only
    refine ⟨?_, ?_, ?_, ?_⟩
    · rw [f2.2.2.1]; omega
    · rw [f2.2.2.1]; exact hc3
    · rw [f2.2.2.1]; exact f2.2.2.2.1
    · intro i
      exact Nat.le_trans (f1.2.2.2.2.1 i) (f2.2.2.2.2.1 i)

theorem step_ledger_ok (e : Env) (o : op) (w : World) (hk : ledger_ok w) (hc : clock_ok e w) :
    ledger_ok (step e o w) ∧
    (∀ i, w.ctrl_hotplug.usage.getD i 0 ≤ (step e o w).ctrl_hotplug.usage.getD i 0) ∧
    w.ctrl_hotplug.last_time ≤ (step e o w).ctrl_hotplug.last_time := by
  obtain ⟨hok, hlen, h0, h63, hsum⟩ := hk
  have hok2 := step_state_ok e o w hok
  have hlen2 : (step e o w).ctrl_hotplug.usage.length = MAX_HSTATE := by
    rw [step_usage_length, hlen]
  unfold ledger_ok usage_total
  unfold usage_total at hsum
  rcases step_ledger_shape e o w with h | ⟨force, state, h⟩ | h
  · rw [h.1, h.2.1]
    exact ⟨⟨hok2, hlen, h0, h63, hsum⟩, fun i => Nat.le_refl _, Int.le_refl _⟩
  · have hl := hotplug_enter_hstate_ledger e force state w hlen hok.1.1 hc h0 hsum
    have hlast : w.ctrl_hotplug.last_time ≤
        (hotplug_enter_hstate e force state w).ctrl_hotplug.last_time := by
      by_cases hs : enter_hstate_target e.power_suspend_active force state w.ctrl_hotplug =
          w.ctrl_hotplug.old_state
      · rw [hotplug_enter_hstate_same_level_frame e force state w hs]
      · rw [(hotplug_enter_hstate_transition e force state w hs).2.2]
        dsimp only
        have h1 := hc.1
        have h2 := hc.2.1
        rw [hotplug_update_time_status_eq]
        dsimp only
        omega
    rw [h.1, h.2.1]
    exact ⟨⟨hok2, by rw [← hlen2, h.1], hl.1, hl.2.1, hl.2.2.1⟩, hl.2.2.2, hlast⟩
  · have hc1 := hc.1
    have hc2 := hc.2.1
    have hc3 := hc.2.2
    have f1 := flush_ledger e.ktime_get_1 w.ctrl_hotplug hlen hok.1.1 hc1 (by omega) hsum
    rw [h]
    refine ⟨⟨hok2, f1.1, ?_, ?_, ?_⟩, f1.2.2.2.2.1, ?_⟩
    · rw [f1.2.2.1]; omega
    · rw [f1.2.2.1]; omega
    · rw [f1.2.2.1]; exact f1.2.2.2.1
    · rw [f1.2.2.1]; exact hc1

theorem run_ledger_ok (trace : List (Env × op)) (w : World) (hk : ledger_ok w)
    (hc : trace_clock_ok trace w) :
    ledger_ok (run trace w) ∧
    (∀ i, w.ctrl_hotplug.usage.getD i 0 ≤ (run trace w).ctrl_hotplug.usage.getD i 0) := by
  induction trace generalizing w with
  | nil => exact ⟨hk, fun i => Nat.le_refl _⟩
  | cons a rest ih =>
    obtain ⟨e, o⟩ := a
    have hs := step_ledger_ok e o w hk hc.1
    have hr := ih (step e o w) hs.1 hc.2
    exact ⟨hr.1, fun i => Nat.le_trans (hs.2.1 i) (hr.2 i)⟩

theorem World_init_ledger_ok (mask : List Bool) : ledger_ok (World_init mask) := by
  refine ⟨World_init_state_ok mask, rfl, ?_, ?_, ?_⟩
  · show (0 : Int) ≤ 0
    omega
  · show (0 : Int) < 9223372036854775808
    omega
  · show ((0 : Nat) : Int) * 1000000 ≤ 0
    omega

/-! ## C16 -/

/-- C16, as stated, fails: from the initial state, two reads of `time_in_state` at
0.6 ms and 1.2 ms flush 0 ms each, so after them the usage of all levels sums to
0 although 1.2 ms (one whole millisecond) have elapsed since the initial
`last_time`; a single read at 1.2 ms accounts 1 ms. -/
theorem sub_millisecond_remainders_are_dropped :
    usage_total
      (run [(sample_env false 600000 600000 1 10 0, op.read_time_in_state),
            (sample_env false 1200000 1200000 1 10 0, op.read_time_in_state)]
        (World_init (List.replicate 8 true))) = 0 ∧
    (run [(sample_env false 600000 600000 1 10 0, op.read_time_in_state),
          (sample_env false 1200000 1200000 1 10 0, op.read_time_in_state)]
      (World_init (List.replicate 8 true))).ctrl_hotplug.last_time = 1200000 ∧
    ktime_to_ms (1200000 - (World_init (List.replicate 8 true)).ctrl_hotplug.last_time) = 1 ∧
    usage_total
      (run [(sample_env false 1200000 1200000 1 10 0, op.read_time_in_state)]
        (World_init (List.replicate 8 true))) = 1 := by
  decide

/-- C16 (amended): with a clock that does not go back, each flush adds to
`usage[old_state]` the whole milliseconds elapsed since `last_time`, capped at
`INT_MAX`, changes no other entry and sets `last_time` to the reading; what it adds
never exceeds the elapsed time and, below the cap, falls short of it by less than
one millisecond. Over every run from the initial state the total usage is at most
(not equal to) the time elapsed since the initial `last_time`, and over every run
no usage entry decreases. -/
theorem usage_ledger_accounting :
    (∀ (t : Int) (c : exynos_hotplug_ctrl),
      c.usage.length = MAX_HSTATE → c.old_state < MAX_HSTATE → c.last_time ≤ t →
      t < 9223372036854775808 → (c.usage.sum : Int) * 1000000 ≤ c.last_time →
      (hotplug_update_time_status t c).1.usage.getD c.old_state 0 =
        c.usage.getD c.old_state 0 + (time_status_diff t c.last_time).toNat ∧
      (∀ i, i ≠ c.old_state →
        (hotplug_update_time_status t c).1.usage.getD i 0 = c.usage.getD i 0) ∧
      (hotplug_update_time_status t c).1.last_time = t ∧
      0 ≤ time_status_diff t c.last_time ∧
      time_status_diff t c.last_time ≤ INT_MAX ∧
      time_status_diff t c.last_time * 1000000 ≤ t - c.last_time ∧
      (time_status_diff t c.last_time < INT_MAX →
        t - c.last_time < (time_status_diff t c.last_time + 1) * 1000000)) ∧
    (∀ (mask : List Bool) (trace : List (Env × op)),
      trace_clock_ok trace (World_init mask) →
      (usage_total (run trace (World_init mask)) : Int) * 1000000 ≤
        (run trace (World_init mask)).ctrl_hotplug.last_time -
          (World_init mask).ctrl_hotplug.last_time) ∧
    (∀ (w : World) (trace : List (Env × op)), ledger_ok w → trace_clock_ok trace w →
      ledger_ok (run trace w) ∧
      ∀ i, w.ctrl_hotplug.usage.getD i 0 ≤ (run trace w).ctrl_hotplug.usage.getD i 0) := by
  refine ⟨?_, ?_, ?_⟩
  · intro t c hlen hold ht ht2 hsum
    have f := flush_ledger t c hlen hold ht ht2 hsum
    have d := time_status_diff_facts t c.last_time ht
    exact ⟨f.2.2.2.2.2.1, f.2.2.2.2.2.2, f.2.2.1, d.1, d.2.1, d.2.2.1, d.2.2.2⟩
  · intro mask trace hc
    have h := (run_ledger_ok trace (World_init mask) (World_init_ledger_ok mask) hc).1
    have h0 : (World_init mask).ctrl_hotplug.last_time = 0 := rfl
    rw [h0]
    have := h.2.2.2.2
    omega
  · intro w trace hk hc
    exact run_ledger_ok trace w hk hc

/-- C16 instance: a flush at 7.9 ms of the initial control block adds 7 ms to
`usage[0]` and sets `last_time` to the reading. -/
theorem usage_ledger_accounting_witness :
    (hotplug_update_time_status 7900000 ctrl_hotplug_init).1.usage.getD
        ctrl_hotplug_init.old_state 0 =
      ctrl_hotplug_init.usage.getD ctrl_hotplug_init.old_state 0 +
        (time_status_diff 7900000 ctrl_hotplug_init.last_time).toNat ∧
    (time_status_diff 7900000 ctrl_hotplug_init.last_time).toNat = 7 :=
  ⟨(usage_ledger_accounting.1 7900000 ctrl_hotplug_init (by decide) (by decide) (by decide)
      (by decide) (by decide)).1, by decide⟩

end DmClusterHotplug
